import Mathlib

/-!
Verification development for the FallacyMania room server
(src/server/server.js): a shallow embedding of the hex-map engine and the
per-room phase state machine, with theorems checking the specification's
claims about capture, scoring, voting, the attacker walk and timers.

JavaScript objects used as keyed records (`roundScores`, `cancelVotes`,
`ratings`, `players`) are embedded as association lists in insertion
order, which matches `Object.values` / `Object.keys` enumeration order.
JavaScript numbers are embedded as `Int`/`Nat` (all arithmetic in the
server stays far below 2^53, so float rounding never occurs); the one
fractional comparison (`cancelCount > totalVoters / 2`) is embedded over
`Rat`.  The external JSON catalogs (fallacy cards, civilizations,
confrontation facts) and `Math.random` are modelled as parameters of an
`Env` record, since the spec treats them as external collaborators.

Timers: `setTimeout`/`clearTimeout` are modelled by a `timerArmed` flag on
the room plus an `expire` step that fires only when armed and consumes the
arming.  The short fixed delays the server inserts between sub-steps
(`setTimeout(advanceAttack, 2000)` and similar) are collapsed into their
continuation, which is exact for the zero-response executions the timer
claims quantify over; for the one claim where an event can occur inside
such a gap (the host's `next_phase` during the 3s pause between
`tallyRatings` and `gotoMap`), the two halves are kept as separate steps.
-/

namespace Sofizm

abbrev PlayerId := String

/-! ## Generic record helpers -/

/-- Association-list update mirroring a JavaScript property write
`obj[key] = v`: replaces the first binding of the key, or appends. -/
def setEntry {α : Type} (m : List (PlayerId × α)) (pid : PlayerId) (v : α) :
    List (PlayerId × α) :=
  match m with
  | [] => [(pid, v)]
  | e :: rest => if e.1 == pid then (pid, v) :: rest else e :: setEntry rest pid v

abbrev Scores := List (PlayerId × Int)

/-- Embeds the JavaScript read `(obj[pid] || 0)` on a numeric record:
the first binding of the key, or 0. -/
def scoreLookup (sc : Scores) (pid : PlayerId) : Int :=
  match sc with
  | [] => 0
  | e :: rest => if e.1 == pid then e.2 else scoreLookup rest pid

/-- Embeds `obj[pid] = (obj[pid] || 0) + d`. -/
def addScore (sc : Scores) (pid : PlayerId) (d : Int) : Scores :=
  setEntry sc pid (scoreLookup sc pid + d)

/-! ## Hex map engine (`hexNeighborOffsets`, `hexDistance`, `initMap`,
`isAdjacentHex`, `applyCapture`) -/

/-- Neighbor offset pattern for a row, by row parity (server.js line 55). -/
def hexNeighborOffsets (row : Int) : List (Int × Int) :=
  if row % 2 = 0 then
    [(-1,-1),(-1,0),(0,-1),(0,1),(1,-1),(1,0)]
  else
    [(-1,0),(-1,1),(0,-1),(0,1),(1,0),(1,1)]

/-- Offset-to-cube conversion `toCube` from `hexDistance` (server.js line
62): `x = c - (r - (r & 1)) / 2`, `y = -x - r`, `z = r`.  On the
non-negative rows the server uses, `r & 1 = r % 2` and the division is
exact. -/
def toCube (r c : Int) : Int × Int × Int :=
  let x := c - (r - r % 2) / 2
  (x, -x - r, r)

/-- Cube distance `max(|dx|, |dy|, |dz|)` (server.js line 61). -/
def hexDistance (r1 c1 r2 c2 : Int) : Int :=
  let a := toCube r1 c1
  let b := toCube r2 c2
  max (|a.1 - b.1|) (max (|a.2.1 - b.2.1|) (|a.2.2 - b.2.2|))

structure Cell where
  id : Int
  row : Int
  col : Int
  owner : Option PlayerId
  dist : Int
deriving DecidableEq, Repr

/-- `RADIUS = n <= 3 ? 5 : n <= 5 ? 6 : 7` (server.js line 69). -/
def radiusFor (n : Nat) : Nat := if n ≤ 3 then 5 else if n ≤ 5 then 6 else 7

/-- `GRID = RADIUS * 2 + 1` (server.js line 70). -/
def gridFor (n : Nat) : Nat := radiusFor n * 2 + 1

/-- The cell-generation loop of `initMap` (server.js lines 74-82): every
grid position whose hex distance from the center `(RADIUS, RADIUS)` is at
most the radius becomes a cell with id `r * GRID + c` and no owner.  The
subsequent anchor-seeding loop of `initMap` mutates only the `owner`
fields (via floating-point angle matching) and is not referenced by any
claim. -/
def initMapCells (n : Nat) : List Cell :=
  let R := radiusFor n
  let G := gridFor n
  (List.range G).flatMap (fun (r : Nat) =>
    (List.range G).filterMap (fun (c : Nat) =>
      let dist := hexDistance (r : Int) (c : Int) (R : Int) (R : Int)
      if dist ≤ (R : Int) then
        some { id := (r : Int) * (G : Int) + (c : Int), row := (r : Int), col := (c : Int),
               owner := none, dist := dist }
      else none))

def findCellById (cells : List Cell) (cellId : Int) : Option Cell :=
  cells.find? (fun c => c.id == cellId)

/-- `isAdjacentHex` (server.js lines 114-121): false for a missing cell or
a cell the player already owns, else true iff some hex neighbor (per the
row's parity pattern) is owned by the player. -/
def isAdjacentHex (cells : List Cell) (cellId : Int) (playerId : PlayerId) : Bool :=
  match findCellById cells cellId with
  | none => false
  | some cell =>
    if cell.owner == some playerId then false
    else
      (hexNeighborOffsets cell.row).any (fun d =>
        match cells.find? (fun c => c.row == cell.row + d.1 && c.col == cell.col + d.2) with
        | some nb => nb.owner == some playerId
        | none => false)

/-- Sets the owner of the first cell with the given id (the JS code
mutates the cell returned by `find`). -/
def updateFirst (cells : List Cell) (cellId : Int) (playerId : PlayerId) : List Cell :=
  match cells with
  | [] => []
  | c :: rest =>
    if c.id == cellId then { c with owner := some playerId } :: rest
    else c :: updateFirst rest cellId playerId

/-- One iteration of the `cellIds.forEach` loop in `applyCapture`
(server.js lines 444-449), acting on the pair (cells, used). -/
def captureStep (playerId : PlayerId) (pts : Int) (st : List Cell × Nat) (cid : Int) :
    List Cell × Nat :=
  if pts ≤ (st.2 : Int) then st
  else if !(isAdjacentHex st.1 cid playerId) then st
  else
    match findCellById st.1 cid with
    | some cell =>
      if cell.owner ≠ some playerId then (updateFirst st.1 cid playerId, st.2 + 1) else st
    | none => st

/-- `applyCapture` (server.js lines 441-452) restricted to its effect on
the board and the player's `roundScores` entry: `pts` is the entry on the
way in (`roundScores[playerId] || 0`), the returned `Int` is the value
stored back (`pts - used`). -/
def applyCapture (cells : List Cell) (pts : Int) (playerId : PlayerId)
    (cellIds : List Int) : List Cell × Int :=
  let r := cellIds.foldl (captureStep playerId pts) (cells, 0)
  (r.1, pts - (r.2 : Int))

/-- Number of cells actually flipped by a capture call (the final value of
`used`). -/
def captureUsed (cells : List Cell) (pts : Int) (playerId : PlayerId)
    (cellIds : List Int) : Nat :=
  (cellIds.foldl (captureStep playerId pts) (cells, 0)).2

/-! Claim-side predicates for C1, written from the spec's wording. -/

/-- The requested id denotes a cell of the board. -/
def cellOnBoard (cells : List Cell) (cid : Int) : Bool :=
  (findCellById cells cid).isSome

/-- The requested cell is already owned by the acting player. -/
def ownedByActor (cells : List Cell) (cid : Int) (p : PlayerId) : Bool :=
  match findCellById cells cid with
  | some cell => cell.owner == some p
  | none => false

/-- The requested cell has, under the hex neighbor relation for its row
parity, at least one neighbor already owned by the acting player. -/
def hasOwnedNeighbor (cells : List Cell) (cid : Int) (p : PlayerId) : Bool :=
  match findCellById cells cid with
  | some cell =>
    (hexNeighborOffsets cell.row).any (fun d =>
      match cells.find? (fun c => c.row == cell.row + d.1 && c.col == cell.col + d.2) with
      | some nb => nb.owner == some p
      | none => false)
  | none => false

/-- One capture request as the specification describes it: flip iff the
cell exists, is adjacent to owned territory, is not already owned by the
actor, and quota remains; otherwise skip silently. -/
def claimStep (p : PlayerId) (pts : Int) (st : List Cell × Nat) (cid : Int) :
    List Cell × Nat :=
  if (st.2 : Int) < pts ∧ cellOnBoard st.1 cid = true ∧ ownedByActor st.1 cid p = false ∧
      hasOwnedNeighbor st.1 cid p = true
  then (updateFirst st.1 cid p, st.2 + 1)
  else st

/-! ## Scoring: cancel vote and rating tallies -/

/-- Count of recorded votes equal to `'cancel'` (server.js line 365). -/
def countCancel (votes : List (PlayerId × String)) : Nat :=
  (votes.filter (fun v => v.2 == "cancel")).length

/-- The comparison `cancelCount > totalVoters / 2` from `tallyCancel`
(server.js lines 366-367), with `totalVoters = players.length - 1`
computed as a JavaScript number (hence `Int`) and the division taken over
the rationals, exactly as float division behaves on these sizes. -/
def tallyCancelled (numPlayers : Nat) (votes : List (PlayerId × String)) : Bool :=
  decide (((((numPlayers : Int) - 1 : Int)) : Rat) / 2 < (countCancel votes : Rat))

/-- `topCount = n >= 6 ? 3 : n >= 4 ? 2 : 1` (server.js lines 389, 404). -/
def topCountFor (n : Nat) : Nat := if 6 ≤ n then 3 else if 4 ≤ n then 2 else 1

/-- `pts[i] || 1` with `pts = [5, 3, 1]` (server.js lines 402, 408). -/
def ratingPoints (i : Nat) : Nat :=
  match [5, 3, 1].get? i with
  | some v => if v = 0 then 1 else v
  | none => 1

/-- The inner loop of `tallyRatings` for one ballot (server.js lines
406-410): the first `topCount` entries of the ranked list receive
`pts[i] || 1` points each, accumulated into `roundScores`. -/
def tallyBallot (n : Nat) (ranked : List PlayerId) (sc : Scores) : Scores :=
  ((ranked.take (topCountFor n)).enum).foldl
    (fun s e => addScore s e.2 ((ratingPoints e.1 : Int))) sc

/-- The outer loop of `tallyRatings` over all submitted ballots, in voter
insertion order (`Object.values(room.ratings)`). -/
def tallyRatingsScores (n : Nat) (ballots : List (List PlayerId)) (sc : Scores) : Scores :=
  ballots.foldl (fun s ranked => tallyBallot n ranked s) sc

/-! ## Shuffle and the attacker walk -/

/-- One swap `[a[i], a[j]] = [a[j], a[i]]` of the Fisher-Yates loop in
`shuffle` (server.js line 32); out-of-range indices leave the list
unchanged (they never occur in the loop). -/
def swapAt2 {α : Type} (a : List α) (i j : Nat) : List α :=
  match a[i]?, a[j]? with
  | some x, some y => (a.set i y).set j x
  | _, _ => a

/-- The downward loop `for (let i = len-1; i > 0; i--)` of `shuffle`
(server.js lines 30-33): at index `i` the partner `j` is the random draw
`rs i` reduced into `[0, i]`, exactly the range of
`Math.floor(Math.random() * (i + 1))`. -/
def fisherYatesAux {α : Type} (rs : Nat → Nat) : Nat → List α → List α
  | 0, a => a
  | k + 1, a => fisherYatesAux rs k (swapAt2 a (k + 1) (rs (k + 1) % (k + 2)))

/-- `shuffle` (server.js lines 28-35), parameterized by the random draws. -/
def shuffle {α : Type} (rs : Nat → Nat) (a : List α) : List α :=
  fisherYatesAux rs (a.length - 1) a

/-- The skip loop at the top of `gotoAttackPrep` (server.js lines
226-229): advance the attacker index past every entry whose player id is
no longer a key of `room.players`. -/
def skipDisconnected (order connected : List PlayerId) (idx : Nat) : Nat :=
  if h : idx < order.length then
    if connected.contains (order.get ⟨idx, h⟩) then idx
    else skipDisconnected order connected (idx + 1)
  else idx
termination_by order.length - idx
decreasing_by omega

/-! ## The room state machine -/

inductive GPhase where
  | lobby
  | civSelect
  | attackPrep
  | defense
  | cancelVote
  | rating
  | mapPhase
  | roundEnd
deriving DecidableEq, Repr

structure GPlayer where
  id : PlayerId
  civId : Option Nat
  score : Int
deriving DecidableEq, Repr

/-- The `room.currentAttack` record (server.js line 246); `defenderCards`
is omitted as no claim mentions it. -/
structure Attack where
  attackerId : PlayerId
  defenderId : Option PlayerId
  factId : Option Nat
  fallacyId : Option Nat
  attackerCards : List Nat
deriving DecidableEq, Repr

structure Speech where
  playerId : PlayerId
  role : String
deriving DecidableEq, Repr

/-- The room fields the claims touch (server.js `createRoom`, line 137).
`timerArmed` models the single tracked `room.timer`; the board payload of
`room.map` is studied separately through `initMapCells`, so only the
"already built" flag is kept here. -/
structure Room where
  phase : GPhase
  round : Nat
  players : List GPlayer
  attackOrder : List PlayerId
  currentAttackerIdx : Nat
  currentAttack : Option Attack
  defenseChoice : Option String
  cancelVotes : List (PlayerId × String)
  ratings : List (PlayerId × List PlayerId)
  roundScores : Scores
  speeches : List Speech
  mapBuilt : Bool
  timerArmed : Bool
deriving DecidableEq, Repr

/-- External inputs: the civilization catalog ids, a dealt fallacy hand
(`pickFallacies` draws from the external card catalog), the confrontation
fact table keyed by civilization pair, and the random draws used by
`shuffle`. -/
structure Env where
  civs : List Nat
  hand : List Nat
  facts : Nat → Nat → Option (List Nat)
  rs : Nat → Nat

def ids (ps : List GPlayer) : List PlayerId := ps.map (fun p => p.id)

def findPlayerIn (ps : List GPlayer) (pid : PlayerId) : Option GPlayer :=
  ps.find? (fun p => p.id == pid)

/-- `getConfrontationFacts` (server.js lines 48-52): the pair key in either
order, else the empty list; a `null` civilization id never matches a key. -/
def getConfrontationFacts (env : Env) (a b : Option Nat) : List Nat :=
  match a, b with
  | some x, some y => ((env.facts x y).orElse (fun _ => env.facts y x)).getD []
  | _, _ => []

/-- `l[0]?.id || null` on a list of content ids (a numeric id 0 is falsy
in JavaScript and becomes `null`). -/
def pickFirstId (l : List Nat) : Option Nat :=
  match l.head? with
  | some i => if i = 0 then none else some i
  | none => none

/-- The targets of an attacker: every other player, in roster order
(server.js line 242). -/
def targetsOf (ps : List GPlayer) (attackerId : PlayerId) : List GPlayer :=
  ps.filter (fun p => p.id != attackerId)

def roleAttack : String := "attack"

def choiceSilence : String := "silence"

/-- `gotoRating` (server.js lines 386-399): set the phase and arm the 45s
deadline whose fallback is the rating tally. -/
def gotoRating (r : Room) : Room :=
  { r with phase := GPhase.rating, timerArmed := true }

/-- `gotoAttackPrep` (server.js lines 224-279): skip disconnected entries,
finish the round into the rating phase when the order is exhausted, else
install the next attacker with a fresh `currentAttack` record and arm the
60s deadline. -/
def gotoAttackPrep (env : Env) (r : Room) : Room :=
  let i := skipDisconnected r.attackOrder (ids r.players) r.currentAttackerIdx
  if h : i < r.attackOrder.length then
    { r with phase := GPhase.attackPrep,
             currentAttackerIdx := i,
             currentAttack := some { attackerId := r.attackOrder.get ⟨i, h⟩,
                                     defenderId := none, factId := none, fallacyId := none,
                                     attackerCards := env.hand },
             timerArmed := true }
  else gotoRating { r with currentAttackerIdx := i }

/-- `advanceAttack` (server.js lines 381-384); the 2s pause before
`gotoAttackPrep` is collapsed. -/
def advanceAttack (env : Env) (r : Room) : Room :=
  gotoAttackPrep env { r with currentAttackerIdx := r.currentAttackerIdx + 1 }

/-- `gotoDefense` (server.js lines 281-345): set the phase, reset the
defense choice and the cancel votes; a missing attacker or defender
advances immediately, else the attacker's speech is logged and the 30s
deadline armed. -/
def gotoDefense (env : Env) (r0 : Room) : Room :=
  let r := { r0 with phase := GPhase.defense, defenseChoice := none,
                     cancelVotes := ([] : List (PlayerId × String)) }
  match r0.currentAttack with
  | none => r
  | some atk =>
    match findPlayerIn r0.players atk.attackerId, atk.defenderId.bind (findPlayerIn r0.players) with
    | some _, some _ =>
      { r with speeches := r0.speeches ++ [{ playerId := atk.attackerId, role := roleAttack }],
               timerArmed := true }
    | _, _ => advanceAttack env r

/-- The 30s defense deadline fallback (server.js lines 337-344): an
unanswered defense becomes an explicit silence, costs the defender one
point, and the machine advances (2s pause collapsed).  The `none`
branches are unreachable because the defense deadline is armed only after
both parties were found. -/
def defenseTimeout (env : Env) (r : Room) : Room :=
  if r.defenseChoice ≠ none then r
  else
    match r.currentAttack with
    | some atk =>
      match atk.defenderId with
      | some d =>
        advanceAttack env
          { r with defenseChoice := some choiceSilence,
                   roundScores := addScore r.roundScores d (-1) }
      | none => r
    | none => r

/-- The scoring half of `tallyCancel` (server.js lines 363-377): on
cancellation the defender loses 4; otherwise the defender gains 3 and the
attacker 2.  The `none` branches are unreachable along modelled runs. -/
def tallyCancelCore (r : Room) : Room :=
  match r.currentAttack with
  | none => r
  | some atk =>
    match atk.defenderId with
    | none => r
    | some d =>
      if tallyCancelled r.players.length r.cancelVotes then
        { r with roundScores := addScore r.roundScores d (-4) }
      else
        { r with roundScores := addScore (addScore r.roundScores d 3) atk.attackerId 2 }

/-- `tallyCancel` with its trailing 3s pause before `advanceAttack`
collapsed. -/
def cancelTimeout (env : Env) (r : Room) : Room :=
  advanceAttack env (tallyCancelCore r)

/-- `tallyRatings` (server.js lines 401-416) up to and including the score
application, but not the delayed `gotoMap`: ballots are folded into
`roundScores`, then every player's cumulative `score` receives their
`roundScores` entry.  The phase is not changed here, exactly as in the
source. -/
def tallyRatingsCore (r : Room) : Room :=
  let rs1 := tallyRatingsScores r.players.length (r.ratings.map (fun e => e.2)) r.roundScores
  { r with roundScores := rs1,
           players := r.players.map (fun p => { p with score := p.score + scoreLookup rs1 p.id }) }

/-- `gotoMap` (server.js lines 420-439): set the phase, build the board on
first entry, arm the 45s deadline.  Note that the stored `roundScores` are
not modified here: only the advertised `capturePoints` in the private
`map_turn` message are clamped with `Math.max(0, ...)`. -/
def gotoMap (r : Room) : Room :=
  { r with phase := GPhase.mapPhase, mapBuilt := true, timerArmed := true }

/-- `gotoRoundEnd` (server.js lines 454-460): set the phase; no timer is
armed, the room idles until the host advances. -/
def gotoRoundEnd (r : Room) : Room :=
  { r with phase := GPhase.roundEnd }

/-- The assignment loop of the civ-select deadline fallback (server.js
lines 192-199): each player still without a civilization receives
`available[ai++ % available.length]`, falling back to the first catalog
entry when `available` is empty (in JavaScript, `available[NaN]` is
`undefined` and the `||` picks `civData.civilizations[0]`). -/
def assignCivs (civs available : List Nat) : List GPlayer → Nat → List GPlayer
  | [], _ => []
  | p :: rest, ai =>
    match p.civId with
    | some _ => p :: assignCivs civs available rest ai
    | none =>
      let c := (available.get? (ai % available.length)).getD (civs.headD 0)
      { p with civId := some c } :: assignCivs civs available rest (ai + 1)

/-- The civ-select deadline fallback before its `gotoRoundStart` call:
auto-assign a civilization to everyone who has not chosen. -/
def autoAssignCivs (env : Env) (r : Room) : Room :=
  let taken := r.players.filterMap (fun p => p.civId)
  let available := env.civs.filter (fun c => !(taken.contains c))
  { r with players := assignCivs env.civs available r.players 0 }

/-- `gotoRoundStart` (server.js lines 205-222): bump the round, clear the
round-scoped records, zero `roundScores` for the current roster, shuffle
the attacker order once, reset the index; the 2.5s pause before
`gotoAttackPrep` is collapsed. -/
def gotoRoundStart (env : Env) (r : Room) : Room :=
  let r1 := { r with
    round := r.round + 1,
    speeches := ([] : List Speech),
    ratings := ([] : List (PlayerId × List PlayerId)),
    roundScores := r.players.map (fun p => (p.id, (0 : Int))),
    attackOrder := shuffle env.rs (ids r.players),
    currentAttackerIdx := 0 }
  gotoAttackPrep env r1

/-- The auto-pick half of the attack-prep deadline fallback and of the
host's `next_phase` in that phase (server.js lines 268-276 and 514-524):
if no defender was chosen and a target exists, pick the first target, the
first confrontation fact, and the first card of the dealt hand. -/
def autoPickAttack (env : Env) (r : Room) : Room :=
  match r.currentAttack with
  | none => r
  | some atk =>
    match atk.defenderId with
    | some _ => r
    | none =>
      match (targetsOf r.players atk.attackerId).head? with
      | none => r
      | some t =>
        { r with currentAttack := some { atk with
            defenderId := some t.id,
            factId := pickFirstId (getConfrontationFacts env
              ((findPlayerIn r.players atk.attackerId).bind (fun p => p.civId)) t.civId),
            fallacyId := pickFirstId atk.attackerCards } }

def civSelectTimeout (env : Env) (r : Room) : Room :=
  gotoRoundStart env (autoAssignCivs env r)

def attackPrepTimeout (env : Env) (r : Room) : Room :=
  gotoDefense env (autoPickAttack env r)

/-- The rating deadline fallback collapsed with its delayed `gotoMap`. -/
def ratingTimeout (r : Room) : Room :=
  gotoMap (tallyRatingsCore r)

/-- Dispatch of the armed deadline's fallback closure by the phase that
armed it. -/
def timerFallback (env : Env) (r : Room) : Room :=
  match r.phase with
  | GPhase.civSelect => civSelectTimeout env r
  | GPhase.attackPrep => attackPrepTimeout env r
  | GPhase.defense => defenseTimeout env r
  | GPhase.cancelVote => cancelTimeout env r
  | GPhase.rating => ratingTimeout r
  | GPhase.mapPhase => gotoRoundEnd r
  | _ => r

/-- Firing the room's deadline: only an armed timer fires, and firing
consumes the arming before running the fallback (a `setTimeout` callback
runs at most once; `startTimer` always clears the previous timer). -/
def expire (env : Env) (r : Room) : Option Room :=
  if r.timerArmed then some (timerFallback env { r with timerArmed := false }) else none

/-- Progress measure for the zero-response run of one round: phases later
in the round and attacker indices deeper into the order score lower. -/
def defMeasure (r : Room) : Nat :=
  match r.phase with
  | GPhase.civSelect => 3 * r.players.length + 3
  | GPhase.attackPrep => 3 * (r.attackOrder.length - r.currentAttackerIdx) + 2
  | GPhase.defense => 3 * (r.attackOrder.length - r.currentAttackerIdx) + 1
  | GPhase.cancelVote => 3 * (r.attackOrder.length - r.currentAttackerIdx)
  | GPhase.rating => 2
  | GPhase.mapPhase => 1
  | _ => 0

/-- A room state with an armed deadline and zero participant responses
since the deadline was armed, together with the invariants the arming
transition established (attacker index in range, attack record populated,
round-scoped vote records empty, nonempty catalog/roster where the
fallback reads them). -/
structure ZeroResponseState (env : Env) (r : Room) : Prop where
  armed : r.timerArmed = true
  timed : r.phase ∈ ([GPhase.civSelect, GPhase.attackPrep, GPhase.defense,
    GPhase.cancelVote, GPhase.rating, GPhase.mapPhase] : List GPhase)
  civsNonempty : env.civs ≠ []
  idxLt : r.phase = GPhase.attackPrep ∨ r.phase = GPhase.defense ∨
    r.phase = GPhase.cancelVote → r.currentAttackerIdx < r.attackOrder.length
  atkPrepWf : r.phase = GPhase.attackPrep →
    ∃ atk, r.currentAttack = some atk ∧ atk.defenderId = none ∧ atk.attackerId ∈ ids r.players
  defenseWf : r.phase = GPhase.defense →
    r.defenseChoice = none ∧ ∃ atk d, r.currentAttack = some atk ∧ atk.defenderId = some d
  cancelWf : r.phase = GPhase.cancelVote →
    r.cancelVotes = [] ∧ 1 ≤ r.players.length ∧
      ∃ atk d, r.currentAttack = some atk ∧ atk.defenderId = some d
  ratingWf : r.phase = GPhase.rating → r.ratings = []

/-- The documented default resolution of each deadline, phrased from the
spec: auto-assign unchosen civilizations, auto-pick the first legal
target/fact/card, treat a non-answer as a defensive silence costing one
point, resolve an empty cancel vote as not cancelled with the usual
scoring, tally ratings from the submitted (here: zero) ballots into the
cumulative scores, close the map phase into the round end. -/
def DefaultResolved (env : Env) (r r2 : Room) : Prop :=
  match r.phase with
  | GPhase.civSelect => ∀ p ∈ r2.players, p.civId.isSome = true
  | GPhase.attackPrep =>
    match r.currentAttack with
    | some atk =>
      match (targetsOf r.players atk.attackerId).head? with
      | some t =>
        ∃ atk2, r2.currentAttack = some atk2 ∧ atk2.defenderId = some t.id ∧
          atk2.factId = pickFirstId (getConfrontationFacts env
            ((findPlayerIn r.players atk.attackerId).bind (fun p => p.civId)) t.civId) ∧
          atk2.fallacyId = pickFirstId atk.attackerCards
      | none => True
    | none => True
  | GPhase.defense =>
    match r.currentAttack with
    | some atk =>
      match atk.defenderId with
      | some d =>
        r2.defenseChoice = some choiceSilence ∧
          scoreLookup r2.roundScores d = scoreLookup r.roundScores d - 1
      | none => True
    | none => True
  | GPhase.cancelVote =>
    match r.currentAttack with
    | some atk =>
      match atk.defenderId with
      | some d =>
        tallyCancelled r.players.length r.cancelVotes = false ∧
          r2.roundScores = addScore (addScore r.roundScores d 3) atk.attackerId 2
      | none => True
    | none => True
  | GPhase.rating =>
    r2.players = r.players.map (fun p => { p with score := p.score + scoreLookup r.roundScores p.id })
  | GPhase.mapPhase => r2.phase = GPhase.roundEnd
  | _ => True

/-! ## Message handlers -/

/-- The `submit_rating` handler (server.js lines 617-626): ignored outside
the rating phase; a voter with a recorded ballot (an array, always truthy)
is ignored; otherwise the ballot is stored, and once every current player
has submitted, the timer is cleared and the tally runs early. -/
def handleSubmitRating (r : Room) (pid : PlayerId) (ranked : List PlayerId) : Room :=
  if r.phase = GPhase.rating then
    match r.ratings.find? (fun e => e.1 == pid) with
    | some _ => r
    | none =>
      if r.players.length ≤ (setEntry r.ratings pid ranked).length then
        tallyRatingsCore { r with ratings := setEntry r.ratings pid ranked,
                                  timerArmed := false }
      else { r with ratings := setEntry r.ratings pid ranked }
  else r

/-- Storing a cancel vote and the early-tally check (server.js lines
608-613). -/
def storeCancelVote (env : Env) (r : Room) (pid : PlayerId) (v : String) : Room :=
  if r.players.length - 1 ≤ (setEntry r.cancelVotes pid v).length then
    cancelTimeout env { r with cancelVotes := setEntry r.cancelVotes pid v,
                               timerArmed := false }
  else { r with cancelVotes := setEntry r.cancelVotes pid v }

/-- The `cancel_vote` handler (server.js lines 605-615): ignored outside
the phase; the defender may not vote; `if (room.cancelVotes[pid]) return`
is a JavaScript truthiness test, so a recorded empty-string vote does not
block a second submission. -/
def handleCancelVoteMsg (env : Env) (r : Room) (pid : PlayerId) (v : String) : Room :=
  if r.phase = GPhase.cancelVote then
    if (r.currentAttack.bind (fun atk => atk.defenderId)) = some pid then r
    else
      match r.cancelVotes.find? (fun e => e.1 == pid) with
      | some e => if e.2 = "" then storeCancelVote env r pid v else r
      | none => storeCancelVote env r pid v
  else r

/-- The host's `next_phase` handler (server.js lines 509-539).  The timer
is cleared first.  In the rating phase it calls `tallyRatings`, which does
not change the phase (the `gotoMap` runs 3 seconds later). -/
def handleNextPhase (env : Env) (r0 : Room) : Room :=
  let r := { r0 with timerArmed := false }
  match r.phase with
  | GPhase.civSelect => gotoRoundStart env r
  | GPhase.attackPrep => gotoDefense env (autoPickAttack env r)
  | GPhase.defense =>
    if r.defenseChoice = none then
      match r.currentAttack with
      | some atk =>
        match atk.defenderId with
        | some d =>
          advanceAttack env { r with defenseChoice := some choiceSilence,
                                     roundScores := addScore r.roundScores d (-1) }
        | none => advanceAttack env { r with defenseChoice := some choiceSilence }
      | none => r
    else advanceAttack env r
  | GPhase.cancelVote => cancelTimeout env r
  | GPhase.rating => tallyRatingsCore r
  | GPhase.mapPhase => gotoRoundEnd r
  | GPhase.roundEnd => gotoRoundStart env r
  | GPhase.lobby => r

/-- The timer callback of the rating phase alone (before its delayed
`gotoMap`): what has already happened when the 3s gap begins. -/
def ratingTimerFired (r : Room) : Room :=
  tallyRatingsCore { r with timerArmed := false }

/-- The `choose_civ` handler (server.js lines 547-561): only in the
civ-select phase, only catalog civilizations; a civilization already held
by a *different* player is answered with an error message and no state
change (the `Bool` is the error flag); otherwise the sender's player
record is updated, and if every player now has a civilization the timer is
cleared and the round starts early. -/
def civUpdate (ps : List GPlayer) (pid : PlayerId) (cid : Nat) : List GPlayer :=
  ps.map (fun (p : GPlayer) => if p.id == pid then { p with civId := some cid } else p)

def handleChooseCiv (env : Env) (r : Room) (pid : PlayerId) (cid : Nat) : Room × Bool :=
  if r.phase = GPhase.civSelect then
    if env.civs.contains cid then
      if r.players.any (fun p => p.id != pid && p.civId == some cid) then (r, true)
      else
        if (civUpdate r.players pid cid).all (fun p => p.civId.isSome) then
          (gotoRoundStart env { r with players := civUpdate r.players pid cid,
                                       timerArmed := false }, false)
        else ({ r with players := civUpdate r.players pid cid }, false)
    else (r, false)
  else (r, false)

/-- No two players hold the same civilization id. -/
def DistinctCivs (ps : List GPlayer) : Prop :=
  ∀ p ∈ ps, ∀ q ∈ ps, p.id ≠ q.id → p.civId = none ∨ p.civId ≠ q.civId

/-- Cumulative score of a player as stored on the roster. -/
def cumScore (r : Room) (pid : PlayerId) : Int :=
  match findPlayerIn r.players pid with
  | some p => p.score
  | none => 0

/-! ## Concrete instances for witnesses and counterexamples -/

def pA : PlayerId := "a"

def pB : PlayerId := "b"

def pC : PlayerId := "c"

def pD : PlayerId := "d"

def pT : PlayerId := "T"

def voteCancel : String := "cancel"

def voteEmpty : String := ""

/-- A two-cell board on row 0: cell 0 owned by `pA`, cell 1 neutral and
hex-adjacent to it (offset (0,-1) of the even-row pattern). -/
def capDemoCells : List Cell :=
  [{ id := 0, row := 0, col := 0, owner := some pA, dist := 0 },
   { id := 1, row := 0, col := 1, owner := none, dist := 1 }]

def envDemo : Env :=
  { civs := [1, 2, 3], hand := [7, 8, 9], facts := fun _ _ => none, rs := fun _ => 0 }

/-- A two-player room sitting in the rating phase with its 45s deadline
armed, no ballots submitted, and a round delta of 2 for `pA`. -/
def ratingRoomDemo : Room :=
  { phase := GPhase.rating, round := 1,
    players := [{ id := pA, civId := some 1, score := 0 },
                { id := pB, civId := some 2, score := 0 }],
    attackOrder := [pA, pB], currentAttackerIdx := 2,
    currentAttack := none, defenseChoice := none,
    cancelVotes := [], ratings := [],
    roundScores := [(pA, 2), (pB, 0)],
    speeches := [], mapBuilt := false, timerArmed := true }

/-- A four-player room in the cancel-vote phase: `pA` attacks, `pD`
defends, no votes yet. -/
def cancelRoomDemo : Room :=
  { phase := GPhase.cancelVote, round := 1,
    players := [{ id := pA, civId := some 1, score := 0 },
                { id := pB, civId := some 2, score := 0 },
                { id := pC, civId := some 3, score := 0 },
                { id := pD, civId := some 1, score := 0 }],
    attackOrder := [pA, pB, pC, pD], currentAttackerIdx := 0,
    currentAttack := some { attackerId := pA, defenderId := some pD, factId := none,
                            fallacyId := none, attackerCards := [] },
    defenseChoice := none,
    cancelVotes := [], ratings := [], roundScores := [],
    speeches := [], mapBuilt := false, timerArmed := true }

/-- A two-player room in the civ-select phase where `pA` already holds
civilization 1 and `pB` holds none. -/
def civRoomDemo : Room :=
  { phase := GPhase.civSelect, round := 0,
    players := [{ id := pA, civId := some 1, score := 0 },
                { id := pB, civId := none, score := 0 }],
    attackOrder := [], currentAttackerIdx := 0,
    currentAttack := none, defenseChoice := none,
    cancelVotes := [], ratings := [], roundScores := [],
    speeches := [], mapBuilt := false, timerArmed := true }

def specBallot : List PlayerId := ["P2", "P5", "P1", "P4", "P3", "P6"]

def pP1 : PlayerId := "P1"

def pP2 : PlayerId := "P2"

def pP3 : PlayerId := "P3"

def pP4 : PlayerId := "P4"

def pP5 : PlayerId := "P5"

def pP6 : PlayerId := "P6"

/-! # Theorems -/

/-! ## Record helper lemmas -/

theorem scoreLookup_setEntry (sc : Scores) (q pid : PlayerId) (v : Int) :
    scoreLookup (setEntry sc q v) pid = if q == pid then v else scoreLookup sc pid := by
  induction sc with
  | nil =>
    by_cases h : q = pid <;> simp [setEntry, scoreLookup, h]
  | cons e rest ih =>
    by_cases he : e.1 = q
    · by_cases h : q = pid
      · simp [setEntry, scoreLookup, he, h]
      · have : ¬ (e.1 = pid) := by rw [he]; exact h
        simp [setEntry, scoreLookup, he, h, this]
    · by_cases hep : e.1 = pid
      · have hqp : ¬ (q = pid) := by
          intro hq; exact he (by rw [hep, hq])
        have hpq : ¬ (pid = q) := fun h => hqp h.symm
        simp [setEntry, scoreLookup, he, hep, hqp, hpq]
      · simp [setEntry, scoreLookup, he, hep, ih]

theorem scoreLookup_addScore (sc : Scores) (q pid : PlayerId) (d : Int) :
    scoreLookup (addScore sc q d) pid =
      if q == pid then scoreLookup sc q + d else scoreLookup sc pid := by
  simp [addScore, scoreLookup_setEntry]

/-! ## C1: capture flips exactly the legal requests -/

theorem isAdjacentHex_eq (cells : List Cell) (cid : Int) (p : PlayerId) :
    isAdjacentHex cells cid p =
      (cellOnBoard cells cid && !(ownedByActor cells cid p) && hasOwnedNeighbor cells cid p) := by
  unfold isAdjacentHex cellOnBoard ownedByActor hasOwnedNeighbor
  cases h : findCellById cells cid with
  | none => simp
  | some cell =>
    by_cases ho : cell.owner = some p
    · simp [ho]
    · have ho' : (cell.owner == some p) = false := by simp [ho]
      simp [ho']

theorem captureStep_eq_claimStep (p : PlayerId) (pts : Int) :
    captureStep p pts = claimStep p pts := by
  funext st cid
  unfold captureStep claimStep
  rw [isAdjacentHex_eq]
  cases h : findCellById st.1 cid with
  | none =>
    simp only [cellOnBoard, h, Option.isSome_none]
    by_cases hq : pts ≤ (st.2 : Int) <;> simp [hq]
  | some cell =>
    by_cases ho : cell.owner = some p
    · have hOwned : ownedByActor st.1 cid p = true := by
        simp [ownedByActor, h, ho]
      by_cases hq : pts ≤ (st.2 : Int) <;> simp [hq, hOwned]
    · have hOwned : ownedByActor st.1 cid p = false := by
        simp [ownedByActor, h, ho]
      have hOn : cellOnBoard st.1 cid = true := by simp [cellOnBoard, h]
      by_cases hq : pts ≤ (st.2 : Int)
      · have : ¬ ((st.2 : Int) < pts) := by omega
        simp [hq, this]
      · have hlt : (st.2 : Int) < pts := by omega
        by_cases hnb : hasOwnedNeighbor st.1 cid p = true
        · simp [hq, hlt, hOn, hOwned, hnb, h, ho]
        · simp [hq, hOn, hOwned, hnb]

/-- C1.  In the map phase, `applyCapture` processes the requested cell ids
in order, and each request flips the cell's owner to the acting player iff
the cell exists on the board, is hex-adjacent (per its row parity) to a
cell the actor already owns, is not already owned by the actor, and the
capture quota is not yet exhausted; any request failing a condition is
silently skipped and leaves the board unchanged.  Formally: the code's
fold over requests coincides, step by step, with the fold of the
spec-side rule `claimStep`. -/
theorem applyCapture_flips_iff (cells : List Cell) (pts : Int) (p : PlayerId)
    (cellIds : List Int) :
    applyCapture cells pts p cellIds =
      (let r := cellIds.foldl (claimStep p pts) (cells, 0)
       (r.1, pts - (r.2 : Int))) := by
  unfold applyCapture
  rw [captureStep_eq_claimStep]

/-! ## C2: quota bounds -/

theorem captureStep_used (p : PlayerId) (pts : Int) (st : List Cell × Nat) (cid : Int) :
    (captureStep p pts st cid).2 = st.2 ∨
      ((st.2 : Int) < pts ∧ (captureStep p pts st cid).2 = st.2 + 1) := by
  unfold captureStep
  by_cases hq : pts ≤ (st.2 : Int)
  · simp [hq]
  · cases h : findCellById st.1 cid with
    | none =>
      by_cases ha : isAdjacentHex st.1 cid p <;> simp [hq, ha, h]
    | some cell =>
      by_cases ha : isAdjacentHex st.1 cid p
      · by_cases ho : cell.owner = some p
        · simp [hq, ha, h, ho]
        · right
          constructor
          · omega
          · simp [hq, ha, h, ho]
      · simp [hq, ha]

theorem captureFold_used_le (p : PlayerId) (pts : Int) (cellIds : List Int) :
    ∀ st : List Cell × Nat, (st.2 : Int) ≤ max 0 pts →
      (((cellIds.foldl (captureStep p pts) st).2 : Int)) ≤ max 0 pts := by
  induction cellIds with
  | nil => intro st h; simpa using h
  | cons cid rest ih =>
    intro st h
    simp only [List.foldl_cons]
    apply ih
    rcases captureStep_used p pts st cid with h1 | ⟨hlt, h2⟩
    · rw [h1]; exact h
    · rw [h2]
      have : (st.2 : Int) + 1 ≤ pts := by omega
      push_cast
      omega

/-- C2 counterexample.  A player can enter the map phase with a negative
`roundScores` entry (e.g. a silence penalty and no rating points):
`gotoMap` clamps only the `capturePoints` field of the private `map_turn`
message (`Math.max(0, ...)`, server.js line 433), not the stored entry.
`applyCapture` then stores the entry back unchanged and negative, even
though the requested cell is adjacent and capturable: the claim's "the
remaining quota stored back into roundScores after the call is never
negative" fails. -/
theorem capture_quota_cex :
    (applyCapture capDemoCells (-1) pA [1]).2 < 0 ∧
      captureUsed capDemoCells (-1) pA [1] = 0 ∧
      isAdjacentHex capDemoCells 1 pA = true := by decide

/-- C2 (amended).  For every board, entry quota and request list, the
number of cells flipped is at most `max 0 quota`, and whenever the entry
quota is non-negative the value stored back into `roundScores` is
non-negative; a negative entry quota, however, is not clamped on entering
the map phase and is stored back unchanged (see `capture_quota_cex`). -/
theorem capture_quota_monotone (cells : List Cell) (pts : Int) (p : PlayerId)
    (cellIds : List Int) :
    (captureUsed cells pts p cellIds : Int) ≤ max 0 pts ∧
      (0 ≤ pts → 0 ≤ (applyCapture cells pts p cellIds).2) := by
  have h := captureFold_used_le p pts cellIds (cells, 0) (by simp)
  refine ⟨h, fun hp => ?_⟩
  have hmax : max 0 pts = pts := max_eq_right hp
  rw [hmax] at h
  have heq : (applyCapture cells pts p cellIds).2 =
      pts - ((cellIds.foldl (captureStep p pts) (cells, 0)).2 : Int) := rfl
  rw [heq]
  omega

/-- Witness for `capture_quota_monotone` at a concrete input. -/
theorem capture_quota_monotone_witness :
    (0 : Int) ≤ 3 ∧ 0 ≤ (applyCapture capDemoCells 3 pA [1]).2 :=
  ⟨by decide, (capture_quota_monotone capDemoCells 3 pA [1]).2 (by decide)⟩

/-! ## C7: board shape -/

theorem initMapCells_eq (n : Nat) :
    initMapCells n =
      (List.range (gridFor n)).flatMap (fun (a : Nat) =>
        (List.range (gridFor n)).filterMap (fun (b : Nat) =>
          if hexDistance (a : Int) (b : Int) (radiusFor n : Int) (radiusFor n : Int) ≤
              (radiusFor n : Int) then
            some { id := (a : Int) * (gridFor n : Int) + (b : Int), row := (a : Int),
                   col := (b : Int), owner := none,
                   dist := hexDistance (a : Int) (b : Int) (radiusFor n : Int) (radiusFor n : Int) }
          else none)) := rfl

theorem mem_initMapCells (n : Nat) (r c : Int) :
    (∃ cell ∈ initMapCells n, cell.row = r ∧ cell.col = c) ↔
      (0 ≤ r ∧ r < (gridFor n : Int) ∧ 0 ≤ c ∧ c < (gridFor n : Int) ∧
        hexDistance r c (radiusFor n) (radiusFor n) ≤ (radiusFor n : Int)) := by
  rw [initMapCells_eq]
  constructor
  · rintro ⟨cell, hmem, hrow, hcol⟩
    simp only [List.mem_flatMap, List.mem_filterMap, List.mem_range] at hmem
    obtain ⟨a, ha, b, hb, hsome⟩ := hmem
    split at hsome
    next hdist =>
      cases hsome
      dsimp only at hrow hcol
      subst hrow
      subst hcol
      exact ⟨Int.natCast_nonneg a, by exact_mod_cast ha, Int.natCast_nonneg b,
        by exact_mod_cast hb, hdist⟩
    next => cases hsome
  · rintro ⟨hr0, hrG, hc0, hcG, hd⟩
    have har : ((r.toNat : Int)) = r := Int.toNat_of_nonneg hr0
    have hbc : ((c.toNat : Int)) = c := Int.toNat_of_nonneg hc0
    have hcond : hexDistance (r.toNat : Int) (c.toNat : Int) (radiusFor n : Int)
        (radiusFor n : Int) ≤ (radiusFor n : Int) := by
      rw [har, hbc]; exact hd
    refine ⟨{ id := (r.toNat : Int) * (gridFor n : Int) + (c.toNat : Int),
              row := (r.toNat : Int), col := (c.toNat : Int), owner := none,
              dist := hexDistance (r.toNat : Int) (c.toNat : Int) (radiusFor n : Int)
                (radiusFor n : Int) }, ?_, har, hbc⟩
    simp only [List.mem_flatMap, List.mem_filterMap, List.mem_range]
    refine ⟨r.toNat, by omega, c.toNat, by omega, ?_⟩
    rw [if_pos hcond]

/-- C7.  The board radius is 5 for at most three players, 6 for at most
five, and 7 otherwise; the grid side is `2 * radius + 1`; a grid position
yields a cell of the generated board iff its offset-to-cube hex distance
from the center `(radius, radius)` is at most the radius; and the board is
a strict subset of the enclosing square (a true hexagon): for two players
it has 91 cells, fewer than the 121 of the 11x11 grid. -/
theorem initMap_board_shape :
    (∀ n : Nat, radiusFor n = if n ≤ 3 then 5 else if n ≤ 5 then 6 else 7)
  ∧ (∀ n : Nat, gridFor n = 2 * radiusFor n + 1)
  ∧ (∀ (n : Nat) (r c : Int),
      (∃ cell ∈ initMapCells n, cell.row = r ∧ cell.col = c) ↔
        (0 ≤ r ∧ r < (gridFor n : Int) ∧ 0 ≤ c ∧ c < (gridFor n : Int) ∧
          hexDistance r c (radiusFor n) (radiusFor n) ≤ (radiusFor n : Int)))
  ∧ (initMapCells 2).length = 91 ∧ gridFor 2 * gridFor 2 = 121 := by
  refine ⟨fun n => rfl, fun n => by unfold gridFor; omega, mem_initMapCells, by decide, by decide⟩

/-! ## C6: rating tally awards top-K with schedule [5,3,1] -/

theorem scoreLookup_foldl_points (l : List (Nat × PlayerId)) (sc : Scores) (pid : PlayerId) :
    scoreLookup (l.foldl (fun s e => addScore s e.2 ((ratingPoints e.1 : Int))) sc) pid =
      scoreLookup sc pid +
        ((l.filter (fun e => e.2 == pid)).map (fun e => (ratingPoints e.1 : Int))).sum := by
  induction l generalizing sc with
  | nil => simp
  | cons e t ih =>
    simp only [List.foldl_cons, List.filter_cons]
    by_cases h : e.2 = pid
    · rw [ih, scoreLookup_addScore]
      simp [h]
      ring
    · rw [ih, scoreLookup_addScore]
      simp [h]

/-- C6.  When ratings are tallied, a ballot contributes to a player
exactly the points of the positions (among the first `topCount` entries)
at which that player is ranked; `topCount` is 3 for a roster of at least
6, 2 for at least 4, else 1; the point schedule is 5/3/1 for ranks 1..3
and any rank index beyond the schedule falls back to 1 point.  The spec's
6-player example ballot `[P2,P5,P1,P4,P3,P6]` awards exactly 5/3/1 to
P2/P5/P1 and nothing to the rest. -/
theorem rating_tally_topK :
    (∀ (n : Nat) (ranked : List PlayerId) (sc : Scores) (pid : PlayerId),
      scoreLookup (tallyBallot n ranked sc) pid =
        scoreLookup sc pid +
          ((((ranked.take (topCountFor n)).enum.filter (fun e => e.2 == pid)).map
              (fun e => (ratingPoints e.1 : Int))).sum))
  ∧ (∀ n : Nat, topCountFor n = if 6 ≤ n then 3 else if 4 ≤ n then 2 else 1)
  ∧ ratingPoints 0 = 5 ∧ ratingPoints 1 = 3 ∧ ratingPoints 2 = 1
  ∧ (∀ i : Nat, ratingPoints (i + 3) = 1)
  ∧ (topCountFor 6 = 3 ∧
      scoreLookup (tallyBallot 6 specBallot []) pP2 = 5 ∧
      scoreLookup (tallyBallot 6 specBallot []) pP5 = 3 ∧
      scoreLookup (tallyBallot 6 specBallot []) pP1 = 1 ∧
      scoreLookup (tallyBallot 6 specBallot []) pP4 = 0 ∧
      scoreLookup (tallyBallot 6 specBallot []) pP3 = 0 ∧
      scoreLookup (tallyBallot 6 specBallot []) pP6 = 0) := by
  refine ⟨?_, fun n => rfl, rfl, rfl, rfl, fun i => rfl, by decide⟩
  intro n ranked sc pid
  exact scoreLookup_foldl_points ((ranked.take (topCountFor n)).enum) sc pid

/-! ## C3: cancel-vote majority -/

theorem tallyCancelled_iff (n : Nat) (votes : List (PlayerId × String)) :
    tallyCancelled n votes = true ↔ ((n : Int) - 1) < 2 * (countCancel votes : Int) := by
  unfold tallyCancelled
  rw [decide_eq_true_eq]
  rw [div_lt_iff₀ (by norm_num : (0 : Rat) < 2)]
  constructor
  · intro h
    have h2 : (((n : Int) - 1 : Int) : Rat) < (((2 * (countCancel votes : Int) : Int)) : Rat) := by
      push_cast at h ⊢
      linarith
    exact_mod_cast h2
  · intro h
    have h2 : (((n : Int) - 1 : Int) : Rat) < (((2 * (countCancel votes : Int) : Int)) : Rat) := by
      exact_mod_cast h
    push_cast at h2 ⊢
    linarith

/-- C3 counterexample.  Take a 3-player roster: attacker, defender, and a
third player `pT` who votes to cancel.  Under the claim's reading the
eligible voters are everyone except attacker and defender, so one voter
and one cancel vote would be a strict majority (1 > 1/2); but the code's
`totalVoters = players.length - 1` (server.js line 366) excludes only the
defender, so the tally requires `1 > 2/2` and does not cancel. -/
theorem cancel_majority_cex :
    tallyCancelled 3 [(pT, voteCancel)] = false ∧
      (((3 : Int) - 2 : Int) : Rat) / 2 < (countCancel [(pT, voteCancel)] : Rat) := by
  constructor
  · have hiff := tallyCancelled_iff 3 [(pT, voteCancel)]
    have hc : countCancel [(pT, voteCancel)] = 1 := by decide
    rw [hc] at hiff
    cases htv : tallyCancelled 3 [(pT, voteCancel)]
    · rfl
    · exfalso
      have := hiff.mp htv
      omega
  · have hc : countCancel [(pT, voteCancel)] = 1 := by decide
    rw [hc]
    norm_num

theorem length_filter_ne (ps : List PlayerId) (d : PlayerId) (hmem : d ∈ ps)
    (hnd : ps.Nodup) :
    (ps.filter (fun q => q != d)).length = ps.length - 1 := by
  induction ps with
  | nil => cases hmem
  | cons a t ih =>
    rcases List.mem_cons.mp hmem with h | h
    · have hnotin : d ∉ t := by
        rw [h]
        exact (List.nodup_cons.mp hnd).1
      have hft : t.filter (fun q => q != d) = t := by
        apply List.filter_eq_self.mpr
        intro q hq
        simp only [bne_iff_ne, ne_eq, decide_eq_true_eq]
        intro hqd
        exact hnotin (hqd ▸ hq)
      have ha : (a != d) = false := by simp [h]
      simp [List.filter_cons, ha, hft]
    · have hne : (a != d) = true := by
        have : a ≠ d := by
          intro he
          exact ((List.nodup_cons.mp hnd).1) (he ▸ h)
        simp [this]
      have hlen := List.length_pos_of_mem h
      have hrec := ih h (List.nodup_cons.mp hnd).2
      simp [List.filter_cons, hne, hrec]
      omega

/-- C3 (amended).  The defender may not vote (a `cancel_vote` from the
defender leaves the room unchanged), but the attacker is *not* excluded:
the code's denominator is the whole current roster minus one, i.e. every
roster member except the defender, and cancellation succeeds iff the
cancel votes are a strict majority of that set. -/
theorem cancel_majority_amended (ps : List PlayerId) (votes : List (PlayerId × String))
    (d : PlayerId) (env : Env) (r : Room) (v : String)
    (hmem : d ∈ ps) (hnd : ps.Nodup)
    (hdef : (r.currentAttack.bind (fun atk => atk.defenderId)) = some d) :
    (tallyCancelled ps.length votes = true ↔
      ((ps.filter (fun q => q != d)).length : Int) < 2 * (countCancel votes : Int))
  ∧ handleCancelVoteMsg env r d v = r := by
  constructor
  · have h2 : ((ps.filter (fun q => q != d)).length : Int) = (ps.length : Int) - 1 := by
      rw [length_filter_ne ps d hmem hnd]
      have := List.length_pos_of_mem hmem
      omega
    rw [h2]
    exact tallyCancelled_iff ps.length votes
  · by_cases hp : r.phase = GPhase.cancelVote
    · simp [handleCancelVoteMsg, hp, hdef]
    · simp [handleCancelVoteMsg, hp]

/-- Witness for `cancel_majority_amended` at a concrete input. -/
theorem cancel_majority_witness :
    (tallyCancelled ([pA, pB, pC, pD] : List PlayerId).length [(pT, voteCancel)] = true ↔
      ((([pA, pB, pC, pD] : List PlayerId).filter (fun q => q != pD)).length : Int) <
        2 * (countCancel [(pT, voteCancel)] : Int))
  ∧ handleCancelVoteMsg envDemo cancelRoomDemo pD voteCancel = cancelRoomDemo :=
  cancel_majority_amended [pA, pB, pC, pD] [(pT, voteCancel)] pD envDemo cancelRoomDemo
    voteCancel (by decide) (by decide) (by decide)

/-! ## C8: attacker order is one shuffle, walked with a skipping index -/

theorem swapAt2_perm {α : Type} [DecidableEq α] (a : List α) (i j : Nat) :
    (swapAt2 a i j).Perm a := by
  unfold swapAt2
  cases hi : a[i]? with
  | none => exact List.Perm.refl a
  | some x =>
    cases hj : a[j]? with
    | none => exact List.Perm.refl a
    | some y =>
      obtain ⟨hil, hxi⟩ := List.getElem?_eq_some.mp hi
      obtain ⟨hjl, hyj⟩ := List.getElem?_eq_some.mp hj
      rw [List.perm_iff_count]
      intro z
      have hjl2 : j < (a.set i y).length := by
        rw [List.length_set]; exact hjl
      rw [List.count_set x z (a.set i y) j hjl2]
      rw [List.count_set y z a i hil]
      have hsetj : (a.set i y)[j] = y := by
        rw [List.getElem_set]
        split
        · rfl
        · exact hyj
      rw [hsetj]
      have hmemx : x ∈ a := by
        rw [← hxi]; exact List.getElem_mem hil
      by_cases hxz : x = z
      · have hc : 0 < List.count z a := List.count_pos_iff.mpr (hxz ▸ hmemx)
        by_cases hyz : y = z <;> simp [hxi, hxz, hyz] <;> omega
      · by_cases hyz : y = z
        · simp [hxi, hxz, hyz]
        · simp [hxi, hxz, hyz]

theorem fisherYatesAux_perm {α : Type} [DecidableEq α] (rs : Nat → Nat) :
    ∀ (k : Nat) (a : List α), (fisherYatesAux rs k a).Perm a := by
  intro k
  induction k with
  | zero => intro a; exact List.Perm.refl a
  | succ n ih =>
    intro a
    unfold fisherYatesAux
    exact (ih _).trans (swapAt2_perm a (n + 1) (rs (n + 1) % (n + 2)))

theorem shuffle_perm {α : Type} [DecidableEq α] (rs : Nat → Nat) (a : List α) :
    (shuffle rs a).Perm a :=
  fisherYatesAux_perm rs (a.length - 1) a

theorem skipDisconnected_fuel (order connected : List PlayerId) :
    ∀ (fuel idx : Nat), order.length - idx ≤ fuel →
      skipDisconnected order connected idx =
        idx + ((order.drop idx).takeWhile (fun p => !(connected.contains p))).length := by
  intro fuel
  induction fuel with
  | zero =>
    intro idx h
    rw [skipDisconnected]
    rw [dif_neg (by omega)]
    rw [List.drop_eq_nil_of_le (by omega)]
    simp
  | succ n ih =>
    intro idx h
    rw [skipDisconnected]
    by_cases hlt : idx < order.length
    · rw [dif_pos hlt]
      rw [List.drop_eq_getElem_cons hlt]
      rw [List.takeWhile_cons]
      by_cases hc : connected.contains (order.get ⟨idx, hlt⟩) = true
      · rw [if_pos hc]
        simp only [List.get_eq_getElem] at hc
        have hpred : (!(connected.contains order[idx])) = false := by
          rw [hc]
          decide
        rw [hpred]
        simp
      · rw [if_neg hc]
        have hstep := ih (idx + 1) (by omega)
        rw [hstep]
        simp only [List.get_eq_getElem] at hc
        have hcf : connected.contains order[idx] = false := Bool.eq_false_iff.mpr hc
        have hpred : (!(connected.contains order[idx])) = true := by
          rw [hcf]
          decide
        rw [hpred]
        simp
        omega
    · rw [dif_neg hlt]
      rw [List.drop_eq_nil_of_le (by omega)]
      simp

theorem skipDisconnected_takeWhile (order connected : List PlayerId) (idx : Nat) :
    skipDisconnected order connected idx =
      idx + ((order.drop idx).takeWhile (fun p => !(connected.contains p))).length :=
  skipDisconnected_fuel order connected (order.length - idx) idx (le_refl _)

theorem skipDisconnected_ge (order connected : List PlayerId) (idx : Nat) :
    idx ≤ skipDisconnected order connected idx := by
  rw [skipDisconnected_takeWhile]
  omega

theorem length_takeWhile_le' {α : Type} (p : α → Bool) (l : List α) :
    (l.takeWhile p).length ≤ l.length := by
  induction l with
  | nil => simp
  | cons a t ih =>
    rw [List.takeWhile_cons]
    split
    · simpa using ih
    · simp

theorem skipDisconnected_le (order connected : List PlayerId) (idx : Nat) :
    skipDisconnected order connected idx ≤ max idx order.length := by
  rw [skipDisconnected_takeWhile]
  have h1 := length_takeWhile_le' (fun p => !(connected.contains p)) (order.drop idx)
  have h2 : (order.drop idx).length = order.length - idx := List.length_drop idx order
  omega

theorem gotoAttackPrep_attackOrder (env : Env) (s : Room) :
    (gotoAttackPrep env s).attackOrder = s.attackOrder := by
  simp only [gotoAttackPrep]
  split <;> rfl

/-- C8.  The attacker order is a single Fisher-Yates shuffle of the roster
computed at round start (a permutation of the current player ids, for
every draw sequence); the machine walks it with an index whose skip loop
advances past exactly the maximal run of entries no longer present in the
roster (the `takeWhile` of disconnected entries); `gotoAttackPrep` lands
on the skipped-to index and enters the rating phase precisely when that
index exhausts the order; and `advanceAttack` is the same walk restarted
one index further. -/
theorem attack_order_walk :
    (∀ (env : Env) (r : Room), ((gotoRoundStart env r).attackOrder).Perm (ids r.players))
  ∧ (∀ (order connected : List PlayerId) (idx : Nat),
      skipDisconnected order connected idx =
        idx + ((order.drop idx).takeWhile (fun p => !(connected.contains p))).length)
  ∧ (∀ (env : Env) (r : Room),
      (gotoAttackPrep env r).currentAttackerIdx =
        skipDisconnected r.attackOrder (ids r.players) r.currentAttackerIdx)
  ∧ (∀ (env : Env) (r : Room),
      ((gotoAttackPrep env r).phase = GPhase.rating ↔
        r.attackOrder.length ≤ skipDisconnected r.attackOrder (ids r.players) r.currentAttackerIdx))
  ∧ (∀ (env : Env) (r : Room),
      advanceAttack env r =
        gotoAttackPrep env { r with currentAttackerIdx := r.currentAttackerIdx + 1 }) := by
  refine ⟨?_, skipDisconnected_takeWhile, ?_, ?_, fun env r => rfl⟩
  · intro env r
    have horder : (gotoRoundStart env r).attackOrder = shuffle env.rs (ids r.players) := by
      unfold gotoRoundStart
      rw [gotoAttackPrep_attackOrder]
    rw [horder]
    exact shuffle_perm env.rs (ids r.players)
  · intro env r
    simp only [gotoAttackPrep]
    split <;> rfl
  · intro env r
    simp only [gotoAttackPrep]
    split
    next h =>
      constructor
      · intro hph
        simp at hph
      · intro hle
        exact absurd hle (by omega)
    next h =>
      constructor
      · intro _
        omega
      · intro _
        rfl

/-! ## Frame lemmas on the machine transitions -/

theorem gotoAttackPrep_players (env : Env) (s : Room) :
    (gotoAttackPrep env s).players = s.players := by
  simp only [gotoAttackPrep]
  split <;> rfl

theorem gotoAttackPrep_phase (env : Env) (s : Room) :
    (gotoAttackPrep env s).phase = GPhase.attackPrep ∨
      (gotoAttackPrep env s).phase = GPhase.rating := by
  simp only [gotoAttackPrep]
  split
  · left; rfl
  · right; rfl

theorem advanceAttack_players (env : Env) (s : Room) :
    (advanceAttack env s).players = s.players := by
  unfold advanceAttack
  rw [gotoAttackPrep_players]

theorem tallyCancelCore_players (r : Room) : (tallyCancelCore r).players = r.players := by
  unfold tallyCancelCore
  split
  · rfl
  · split
    · rfl
    · split <;> rfl

theorem cancelTimeout_players (env : Env) (r : Room) :
    (cancelTimeout env r).players = r.players := by
  unfold cancelTimeout
  rw [advanceAttack_players, tallyCancelCore_players]

theorem cancelTimeout_phase (env : Env) (r : Room) :
    (cancelTimeout env r).phase = GPhase.attackPrep ∨
      (cancelTimeout env r).phase = GPhase.rating := by
  unfold cancelTimeout advanceAttack
  exact gotoAttackPrep_phase env _

theorem defenseTimeout_players (env : Env) (r : Room) :
    (defenseTimeout env r).players = r.players := by
  unfold defenseTimeout
  split
  · rfl
  · split
    · split
      · rw [advanceAttack_players]
      · rfl
    · rfl

/-! ## C9: duplicate submissions -/

theorem find?_setEntry_self {α : Type} (m : List (PlayerId × α)) (pid : PlayerId) (v : α) :
    (setEntry m pid v).find? (fun e => e.1 == pid) = some (pid, v) := by
  induction m with
  | nil => simp [setEntry]
  | cons e rest ih =>
    by_cases he : e.1 = pid
    · simp [setEntry, he]
    · simp [setEntry, he, ih]

/-- C9 counterexample.  The duplicate guard of the `cancel_vote` handler,
`if (room.cancelVotes[pid]) return`, is a JavaScript truthiness test.  A
first submission carrying the empty string is stored but falsy, so a
second submission from the same participant in the same round passes the
guard, overwrites the entry and changes the recorded tally: the claim's
"the first submission stands and the recorded tally is unchanged by the
duplicate" fails. -/
theorem duplicate_submission_cex :
    countCancel (handleCancelVoteMsg envDemo cancelRoomDemo pB voteEmpty).cancelVotes = 0 ∧
      countCancel (handleCancelVoteMsg envDemo
        (handleCancelVoteMsg envDemo cancelRoomDemo pB voteEmpty) pB voteCancel).cancelVotes = 1 ∧
      handleCancelVoteMsg envDemo
        (handleCancelVoteMsg envDemo cancelRoomDemo pB voteEmpty) pB voteCancel ≠
        handleCancelVoteMsg envDemo cancelRoomDemo pB voteEmpty := by decide

theorem handleCancelVoteMsg_second (env : Env) (s : Room) (pid : PlayerId) (v : String)
    (hns : s.phase ≠ GPhase.cancelVote) : handleCancelVoteMsg env s pid v = s := by
  unfold handleCancelVoteMsg
  rw [if_neg hns]

/-- C9 (amended).  A second rating submission from the same participant in
the same round is always ignored (the stored ballot is an array, which is
truthy); a second cancel vote is ignored provided the first stored vote
was a non-empty string — in particular for the protocol values 'cancel'
and 'ok'.  (A first vote equal to the empty string is falsy and can be
overwritten, see `duplicate_submission_cex`.) -/
theorem duplicate_submission_ignored (env : Env) (r s : Room) (pid : PlayerId)
    (v1 v2 : String) (ranked1 ranked2 : List PlayerId) (hv : v1 ≠ "") :
    handleCancelVoteMsg env (handleCancelVoteMsg env r pid v1) pid v2 =
      handleCancelVoteMsg env r pid v1
  ∧ handleSubmitRating (handleSubmitRating s pid ranked1) pid ranked2 =
      handleSubmitRating s pid ranked1 := by
  constructor
  · by_cases hp : r.phase = GPhase.cancelVote
    · by_cases hdef : (r.currentAttack.bind (fun atk => atk.defenderId)) = some pid
      · have h1 : handleCancelVoteMsg env r pid v1 = r := by
          unfold handleCancelVoteMsg
          rw [if_pos hp, if_pos hdef]
        rw [h1]
        unfold handleCancelVoteMsg
        rw [if_pos hp, if_pos hdef]
      · cases hfind : r.cancelVotes.find? (fun e => e.1 == pid) with
        | some e =>
          by_cases he : e.2 = ""
          · have h1 : handleCancelVoteMsg env r pid v1 = storeCancelVote env r pid v1 := by
              unfold handleCancelVoteMsg
              rw [if_pos hp, if_neg hdef, hfind]
              dsimp only
              rw [if_pos he]
            rw [h1]
            unfold storeCancelVote
            split
            next hthr =>
              have hph := cancelTimeout_phase env
                { r with cancelVotes := setEntry r.cancelVotes pid v1, timerArmed := false }
              apply handleCancelVoteMsg_second
              rcases hph with h | h <;> rw [h] <;> intro hfalse <;> cases hfalse
            next hthr =>
              unfold handleCancelVoteMsg
              rw [if_pos hp]
              rw [if_neg hdef]
              rw [find?_setEntry_self]
              dsimp only
              rw [if_neg hv]
          · have h1 : handleCancelVoteMsg env r pid v1 = r := by
              unfold handleCancelVoteMsg
              rw [if_pos hp, if_neg hdef, hfind]
              dsimp only
              rw [if_neg he]
            rw [h1]
            unfold handleCancelVoteMsg
            rw [if_pos hp, if_neg hdef, hfind]
            dsimp only
            rw [if_neg he]
        | none =>
          have h1 : handleCancelVoteMsg env r pid v1 = storeCancelVote env r pid v1 := by
            unfold handleCancelVoteMsg
            rw [if_pos hp, if_neg hdef, hfind]
          rw [h1]
          unfold storeCancelVote
          split
          next hthr =>
            have hph := cancelTimeout_phase env
              { r with cancelVotes := setEntry r.cancelVotes pid v1, timerArmed := false }
            apply handleCancelVoteMsg_second
            rcases hph with h | h <;> rw [h] <;> intro hfalse <;> cases hfalse
          next hthr =>
            unfold handleCancelVoteMsg
            rw [if_pos hp]
            rw [if_neg hdef]
            rw [find?_setEntry_self]
            dsimp only
            rw [if_neg hv]
    · have h1 : handleCancelVoteMsg env r pid v1 = r := handleCancelVoteMsg_second env r pid v1 hp
      rw [h1]
      exact handleCancelVoteMsg_second env r pid v2 hp
  · by_cases hp : s.phase = GPhase.rating
    · cases hfind : s.ratings.find? (fun e => e.1 == pid) with
      | some e =>
        have h1 : handleSubmitRating s pid ranked1 = s := by
          unfold handleSubmitRating
          rw [if_pos hp, hfind]
        rw [h1]
        unfold handleSubmitRating
        rw [if_pos hp, hfind]
      | none =>
        have h1 : handleSubmitRating s pid ranked1 =
            (if s.players.length ≤ (setEntry s.ratings pid ranked1).length then
              tallyRatingsCore { s with ratings := setEntry s.ratings pid ranked1,
                                        timerArmed := false }
            else { s with ratings := setEntry s.ratings pid ranked1 }) := by
          unfold handleSubmitRating
          rw [if_pos hp, hfind]
        rw [h1]
        split
        next hthr =>
          unfold handleSubmitRating
          rw [if_pos (show (tallyRatingsCore { s with
            ratings := setEntry s.ratings pid ranked1, timerArmed := false }).phase =
              GPhase.rating from hp)]
          rw [show (tallyRatingsCore { s with
            ratings := setEntry s.ratings pid ranked1, timerArmed := false }).ratings =
              setEntry s.ratings pid ranked1 from rfl]
          rw [find?_setEntry_self]
        next hthr =>
          unfold handleSubmitRating
          rw [if_pos (show ({ s with ratings := setEntry s.ratings pid ranked1 } : Room).phase =
            GPhase.rating from hp)]
          rw [show ({ s with ratings := setEntry s.ratings pid ranked1 } : Room).ratings =
            setEntry s.ratings pid ranked1 from rfl]
          rw [find?_setEntry_self]
    · have h1 : handleSubmitRating s pid ranked1 = s := by
        unfold handleSubmitRating
        rw [if_neg hp]
      rw [h1]
      unfold handleSubmitRating
      rw [if_neg hp]

/-- Witness for `duplicate_submission_ignored` at a concrete input. -/
theorem duplicate_submission_witness :
    handleCancelVoteMsg envDemo (handleCancelVoteMsg envDemo cancelRoomDemo pB voteCancel)
        pB voteCancel =
      handleCancelVoteMsg envDemo cancelRoomDemo pB voteCancel
  ∧ handleSubmitRating (handleSubmitRating ratingRoomDemo pB [pB]) pB [pA] =
      handleSubmitRating ratingRoomDemo pB [pB] :=
  duplicate_submission_ignored envDemo cancelRoomDemo ratingRoomDemo pB voteCancel voteCancel
    [pB] [pA] (by decide)

/-! ## C10: civilization uniqueness -/

theorem gotoRoundStart_players (env : Env) (s : Room) :
    (gotoRoundStart env s).players = s.players := by
  unfold gotoRoundStart
  rw [gotoAttackPrep_players]

theorem distinctCivs_civUpdate (ps : List GPlayer) (pid : PlayerId) (cid : Nat)
    (hd : DistinctCivs ps)
    (hany : ¬ (ps.any (fun p => p.id != pid && p.civId == some cid) = true)) :
    DistinctCivs (civUpdate ps pid cid) := by
  have hall : ∀ x ∈ ps, x.id ≠ pid → x.civId ≠ some cid := by
    intro x hx hid hciv
    exact hany (List.any_eq_true.mpr ⟨x, hx, by simp [hid, hciv]⟩)
  intro p hp q hq hne
  simp only [civUpdate, List.mem_map] at hp hq
  obtain ⟨p0, hp0, rfl⟩ := hp
  obtain ⟨q0, hq0, rfl⟩ := hq
  by_cases hpp : p0.id = pid
  · have hp' : (if (p0.id == pid) = true then { p0 with civId := some cid } else p0) =
        { p0 with civId := some cid } := by simp [hpp]
    by_cases hqp : q0.id = pid
    · have hq' : (if (q0.id == pid) = true then { q0 with civId := some cid } else q0) =
          { q0 with civId := some cid } := by simp [hqp]
      exfalso
      apply hne
      rw [hp', hq']
      show p0.id = q0.id
      rw [hpp, hqp]
    · have hq' : (if (q0.id == pid) = true then { q0 with civId := some cid } else q0) = q0 := by
        simp [hqp]
      rw [hp', hq']
      right
      show some cid ≠ q0.civId
      intro heq
      exact hall q0 hq0 hqp heq.symm
  · have hp' : (if (p0.id == pid) = true then { p0 with civId := some cid } else p0) = p0 := by
      simp [hpp]
    by_cases hqp : q0.id = pid
    · have hq' : (if (q0.id == pid) = true then { q0 with civId := some cid } else q0) =
          { q0 with civId := some cid } := by simp [hqp]
      rw [hp', hq']
      right
      show p0.civId ≠ some cid
      exact hall p0 hp0 hpp
    · have hq' : (if (q0.id == pid) = true then { q0 with civId := some cid } else q0) = q0 := by
        simp [hqp]
      rw [hp', hq'] at hne ⊢
      exact hd p0 hp0 q0 hq0 hne

theorem distinctCivs_handleChooseCiv (env : Env) (r : Room) (pid : PlayerId) (cid : Nat)
    (hd : DistinctCivs r.players) :
    DistinctCivs ((handleChooseCiv env r pid cid).1).players := by
  unfold handleChooseCiv
  by_cases hp : r.phase = GPhase.civSelect
  · rw [if_pos hp]
    by_cases hcat : env.civs.contains cid = true
    · rw [if_pos hcat]
      by_cases hany : r.players.any (fun p => p.id != pid && p.civId == some cid) = true
      · rw [if_pos hany]
        exact hd
      · rw [if_neg hany]
        split
        next hall2 =>
          dsimp only
          rw [gotoRoundStart_players]
          exact distinctCivs_civUpdate r.players pid cid hd hany
        next hall2 =>
          exact distinctCivs_civUpdate r.players pid cid hd hany
    · rw [if_neg hcat]
      exact hd
  · rw [if_neg hp]
    exact hd

theorem distinctCivs_fold (env : Env) (msgs : List (PlayerId × Nat)) :
    ∀ r : Room, DistinctCivs r.players →
      DistinctCivs ((msgs.foldl (fun s m => (handleChooseCiv env s m.1 m.2).1) r).players) := by
  induction msgs with
  | nil =>
    intro r hd
    simpa using hd
  | cons m t ih =>
    intro r hd
    simp only [List.foldl_cons]
    exact ih _ (distinctCivs_handleChooseCiv env r m.1 m.2 hd)

/-- C10.  During the civ-select phase, a `choose_civ` for a catalog
civilization already held by a different player is rejected: the sender
gets an error (the `true` flag) and the room is unchanged.  Consequently
the handler preserves civilization distinctness, and after any sequence of
handled `choose_civ` messages no two players hold the same civilization
id. -/
theorem choose_civ_unique (env : Env) (r : Room) (pid : PlayerId) (cid : Nat)
    (hd : DistinctCivs r.players) :
    (r.phase = GPhase.civSelect → env.civs.contains cid = true →
      r.players.any (fun p => p.id != pid && p.civId == some cid) = true →
      handleChooseCiv env r pid cid = (r, true))
  ∧ DistinctCivs ((handleChooseCiv env r pid cid).1).players
  ∧ (∀ msgs : List (PlayerId × Nat),
      DistinctCivs ((msgs.foldl (fun s m => (handleChooseCiv env s m.1 m.2).1) r).players)) := by
  refine ⟨?_, distinctCivs_handleChooseCiv env r pid cid hd, fun msgs => distinctCivs_fold env msgs r hd⟩
  intro hp hcat hany
  unfold handleChooseCiv
  rw [if_pos hp, if_pos hcat, if_pos hany]

/-- Witness for `choose_civ_unique` at a concrete input: `pB` asks for the
civilization `pA` already holds and is rejected without a state change. -/
theorem choose_civ_unique_witness :
    handleChooseCiv envDemo civRoomDemo pB 1 = (civRoomDemo, true)
  ∧ DistinctCivs ((handleChooseCiv envDemo civRoomDemo pB 1).1).players :=
  ⟨(choose_civ_unique envDemo civRoomDemo pB 1 (by unfold DistinctCivs; decide)).1 rfl
      (by decide) (by decide),
   (choose_civ_unique envDemo civRoomDemo pB 1 (by unfold DistinctCivs; decide)).2.1⟩

/-! ## C5: the cumulative score and the rating tally -/

/-- C5.  Among the sub-actions of a round, the silence penalty, the cancel
result and the map transitions leave every player's cumulative `score`
untouched (they mutate `roundScores` only; `applyCapture` never touches
the roster at all, as its type shows) — the only mutation of `score` is
the rating tally.  But the tally is not protected against double
application: `tallyRatings` leaves `room.phase` at `rating` and schedules
`gotoMap` 3 seconds later, so a host `next_phase` inside that window runs
`tallyRatings` again.  At the concrete failing input (two players,
`roundScores = {a: 2, b: 0}`, no ballots), the timer's tally brings `a`'s
score to 2, and the host's `next_phase` doubles it to 4, contradicting
the claim that the tally is applied exactly once per round. -/
theorem rating_tally_double_apply :
    (∀ (env : Env) (r : Room), (defenseTimeout env r).players = r.players)
  ∧ (∀ (env : Env) (r : Room), (cancelTimeout env r).players = r.players)
  ∧ (∀ r : Room, (gotoMap r).players = r.players ∧ (gotoRoundEnd r).players = r.players)
  ∧ (ratingTimerFired ratingRoomDemo).phase = GPhase.rating
  ∧ cumScore (ratingTimerFired ratingRoomDemo) pA = 2
  ∧ cumScore (handleNextPhase envDemo (ratingTimerFired ratingRoomDemo)) pA = 4 := by
  exact ⟨defenseTimeout_players, cancelTimeout_players, fun r => ⟨rfl, rfl⟩,
    by decide, by decide, by decide⟩

/-! ## C4: timer fallbacks always advance the machine -/

theorem gotoAttackPrep_armed (env : Env) (s : Room) :
    (gotoAttackPrep env s).timerArmed = true := by
  simp only [gotoAttackPrep]
  split <;> rfl

theorem gotoAttackPrep_defenseChoice (env : Env) (s : Room) :
    (gotoAttackPrep env s).defenseChoice = s.defenseChoice := by
  simp only [gotoAttackPrep]
  split <;> rfl

theorem gotoAttackPrep_roundScores (env : Env) (s : Room) :
    (gotoAttackPrep env s).roundScores = s.roundScores := by
  simp only [gotoAttackPrep]
  split <;> rfl

theorem advanceAttack_armed (env : Env) (s : Room) :
    (advanceAttack env s).timerArmed = true :=
  gotoAttackPrep_armed env _

theorem advanceAttack_defenseChoice (env : Env) (s : Room) :
    (advanceAttack env s).defenseChoice = s.defenseChoice :=
  gotoAttackPrep_defenseChoice env _

theorem advanceAttack_roundScores (env : Env) (s : Room) :
    (advanceAttack env s).roundScores = s.roundScores :=
  gotoAttackPrep_roundScores env _

theorem advanceAttack_currentAttack_of_found (env : Env) (s : Room) :
    (advanceAttack env s).phase = GPhase.attackPrep ∨
      (advanceAttack env s).phase = GPhase.rating :=
  gotoAttackPrep_phase env _

theorem defMeasure_gotoAttackPrep (env : Env) (s : Room) :
    defMeasure (gotoAttackPrep env s) ≤
      3 * (s.attackOrder.length - s.currentAttackerIdx) + 2 := by
  have hge := skipDisconnected_ge s.attackOrder (ids s.players) s.currentAttackerIdx
  simp only [gotoAttackPrep]
  split
  next hlt =>
    simp only [defMeasure]
    omega
  next hlt =>
    simp only [gotoRating, defMeasure]
    omega

theorem defMeasure_advanceAttack (env : Env) (s : Room)
    (h : s.currentAttackerIdx < s.attackOrder.length) :
    defMeasure (advanceAttack env s) < 3 * (s.attackOrder.length - s.currentAttackerIdx) := by
  unfold advanceAttack
  have hb := defMeasure_gotoAttackPrep env
    { s with currentAttackerIdx := s.currentAttackerIdx + 1 }
  dsimp only at hb
  omega

theorem shuffle_length {α : Type} [DecidableEq α] (rs : Nat → Nat) (a : List α) :
    (shuffle rs a).length = a.length :=
  (shuffle_perm rs a).length_eq

theorem assignCivs_length (civs available : List Nat) :
    ∀ (ps : List GPlayer) (ai : Nat), (assignCivs civs available ps ai).length = ps.length := by
  intro ps
  induction ps with
  | nil => intro ai; rfl
  | cons q rest ih =>
    intro ai
    unfold assignCivs
    cases hq : q.civId with
    | some c => simp [ih]
    | none => simp [ih]

theorem assignCivs_isSome (civs available : List Nat) :
    ∀ (ps : List GPlayer) (ai : Nat) (p : GPlayer),
      p ∈ assignCivs civs available ps ai → p.civId.isSome = true := by
  intro ps
  induction ps with
  | nil => intro ai p hp; cases hp
  | cons q rest ih =>
    intro ai p hp
    unfold assignCivs at hp
    cases hq : q.civId with
    | some c =>
      rw [hq] at hp
      rcases List.mem_cons.mp hp with h | h
      · rw [h, hq]; rfl
      · exact ih ai p h
    | none =>
      rw [hq] at hp
      rcases List.mem_cons.mp hp with h | h
      · rw [h]; rfl
      · exact ih (ai + 1) p h

theorem defMeasure_gotoRoundStart (env : Env) (s : Room) :
    defMeasure (gotoRoundStart env s) ≤ 3 * s.players.length + 2 := by
  unfold gotoRoundStart
  dsimp only
  have hb := defMeasure_gotoAttackPrep env
    { s with round := s.round + 1, speeches := ([] : List Speech),
             ratings := ([] : List (PlayerId × List PlayerId)),
             roundScores := s.players.map (fun p => (p.id, (0 : Int))),
             attackOrder := shuffle env.rs (ids s.players),
             currentAttackerIdx := 0 }
  dsimp only at hb
  have hlen : (shuffle env.rs (ids s.players)).length = s.players.length := by
    rw [shuffle_length]
    simp [ids]
  omega

theorem findPlayerIn_isSome (ps : List GPlayer) (pid : PlayerId) (h : pid ∈ ids ps) :
    ∃ p, findPlayerIn ps pid = some p := by
  unfold findPlayerIn
  simp only [ids, List.mem_map] at h
  obtain ⟨p, hp, rfl⟩ := h
  have hs : (ps.find? (fun q => q.id == p.id)).isSome = true :=
    List.find?_isSome.mpr ⟨p, hp, by simp⟩
  obtain ⟨q, hq⟩ := Option.isSome_iff_exists.mp hs
  exact ⟨q, hq⟩

theorem tallyCancelled_empty (n : Nat) (hn : 1 ≤ n) :
    tallyCancelled n ([] : List (PlayerId × String)) = false := by
  cases hb : tallyCancelled n ([] : List (PlayerId × String))
  · rfl
  · exfalso
    have hlt := (tallyCancelled_iff n []).mp hb
    have hc : countCancel ([] : List (PlayerId × String)) = 0 := rfl
    rw [hc] at hlt
    omega

theorem fallback_map_spec (env : Env) (r : Room) (hph : r.phase = GPhase.mapPhase) :
    defMeasure (timerFallback env { r with timerArmed := false }) < defMeasure r
  ∧ DefaultResolved env r (timerFallback env { r with timerArmed := false })
  ∧ ((timerFallback env { r with timerArmed := false }).timerArmed = true ∨
      (timerFallback env { r with timerArmed := false }).phase = GPhase.roundEnd) := by
  have hfb : timerFallback env { r with timerArmed := false } =
      gotoRoundEnd { r with timerArmed := false } := by
    unfold timerFallback
    rw [show ({ r with timerArmed := false } : Room).phase = GPhase.mapPhase from hph]
  rw [hfb]
  refine ⟨?_, ?_, Or.inr rfl⟩
  · have h2 : defMeasure r = 1 := by
      unfold defMeasure
      rw [hph]
    have h1 : defMeasure (gotoRoundEnd { r with timerArmed := false }) = 0 := rfl
    omega
  · unfold DefaultResolved
    rw [hph]
    exact rfl

theorem tallyRatingsCore_players_of_empty (s : Room) (hs : s.ratings = []) :
    (tallyRatingsCore s).players =
      s.players.map (fun p => { p with score := p.score + scoreLookup s.roundScores p.id }) := by
  unfold tallyRatingsCore
  rw [hs]
  rfl

theorem fallback_rating_spec (env : Env) (r : Room) (hph : r.phase = GPhase.rating)
    (hrat : r.ratings = []) :
    defMeasure (timerFallback env { r with timerArmed := false }) < defMeasure r
  ∧ DefaultResolved env r (timerFallback env { r with timerArmed := false })
  ∧ ((timerFallback env { r with timerArmed := false }).timerArmed = true ∨
      (timerFallback env { r with timerArmed := false }).phase = GPhase.roundEnd) := by
  have hfb : timerFallback env { r with timerArmed := false } =
      ratingTimeout { r with timerArmed := false } := by
    unfold timerFallback
    rw [show ({ r with timerArmed := false } : Room).phase = GPhase.rating from hph]
  rw [hfb]
  refine ⟨?_, ?_, Or.inl rfl⟩
  · have h2 : defMeasure r = 2 := by
      unfold defMeasure
      rw [hph]
    have h1 : defMeasure (ratingTimeout { r with timerArmed := false }) = 1 := rfl
    omega
  · unfold DefaultResolved
    rw [hph]
    show (ratingTimeout { r with timerArmed := false }).players = _
    have hstep : (ratingTimeout { r with timerArmed := false }).players =
        (tallyRatingsCore { r with timerArmed := false }).players := rfl
    rw [hstep]
    rw [tallyRatingsCore_players_of_empty { r with timerArmed := false } hrat]

theorem fallback_cancel_spec (env : Env) (r : Room) (hph : r.phase = GPhase.cancelVote)
    (hcv : r.cancelVotes = []) (hnp : 1 ≤ r.players.length)
    (atk : Attack) (d : PlayerId)
    (hatk : r.currentAttack = some atk) (hd : atk.defenderId = some d)
    (hidx : r.currentAttackerIdx < r.attackOrder.length) :
    defMeasure (timerFallback env { r with timerArmed := false }) < defMeasure r
  ∧ DefaultResolved env r (timerFallback env { r with timerArmed := false })
  ∧ ((timerFallback env { r with timerArmed := false }).timerArmed = true ∨
      (timerFallback env { r with timerArmed := false }).phase = GPhase.roundEnd) := by
  have hfc : tallyCancelled r.players.length r.cancelVotes = false := by
    rw [hcv]
    exact tallyCancelled_empty _ hnp
  have hcond : tallyCancelled ({ r with timerArmed := false } : Room).players.length
      ({ r with timerArmed := false } : Room).cancelVotes = false := hfc
  have htc : tallyCancelCore { r with timerArmed := false } =
      { r with timerArmed := false,
               roundScores := addScore (addScore r.roundScores d 3) atk.attackerId 2 } := by
    unfold tallyCancelCore
    rw [show ({ r with timerArmed := false } : Room).currentAttack = some atk from hatk]
    dsimp only
    rw [hd]
    dsimp only
    rw [if_neg (by simp [hcond])]
  have hfb : timerFallback env { r with timerArmed := false } =
      cancelTimeout env { r with timerArmed := false } := by
    unfold timerFallback
    rw [show ({ r with timerArmed := false } : Room).phase = GPhase.cancelVote from hph]
  rw [hfb]
  unfold cancelTimeout
  rw [htc]
  refine ⟨?_, ?_, Or.inl (advanceAttack_armed env _)⟩
  · have hm := defMeasure_advanceAttack env
      { r with timerArmed := false,
               roundScores := addScore (addScore r.roundScores d 3) atk.attackerId 2 }
      (by dsimp only; exact hidx)
    dsimp only at hm
    have h2 : defMeasure r = 3 * (r.attackOrder.length - r.currentAttackerIdx) := by
      unfold defMeasure
      rw [hph]
    omega
  · unfold DefaultResolved
    rw [hph, hatk]
    dsimp only
    rw [hd]
    dsimp only
    refine ⟨hfc, ?_⟩
    rw [advanceAttack_roundScores]

theorem fallback_defense_spec (env : Env) (r : Room) (hph : r.phase = GPhase.defense)
    (hdc : r.defenseChoice = none)
    (atk : Attack) (d : PlayerId)
    (hatk : r.currentAttack = some atk) (hd : atk.defenderId = some d)
    (hidx : r.currentAttackerIdx < r.attackOrder.length) :
    defMeasure (timerFallback env { r with timerArmed := false }) < defMeasure r
  ∧ DefaultResolved env r (timerFallback env { r with timerArmed := false })
  ∧ ((timerFallback env { r with timerArmed := false }).timerArmed = true ∨
      (timerFallback env { r with timerArmed := false }).phase = GPhase.roundEnd) := by
  have hfb : timerFallback env { r with timerArmed := false } =
      defenseTimeout env { r with timerArmed := false } := by
    unfold timerFallback
    rw [show ({ r with timerArmed := false } : Room).phase = GPhase.defense from hph]
  have hdt : defenseTimeout env { r with timerArmed := false } =
      advanceAttack env
        { r with timerArmed := false, defenseChoice := some choiceSilence,
                 roundScores := addScore r.roundScores d (-1) } := by
    unfold defenseTimeout
    rw [if_neg (by
      rw [show ({ r with timerArmed := false } : Room).defenseChoice = none from hdc]
      simp)]
    rw [show ({ r with timerArmed := false } : Room).currentAttack = some atk from hatk]
    dsimp only
    rw [hd]
  rw [hfb, hdt]
  refine ⟨?_, ?_, Or.inl (advanceAttack_armed env _)⟩
  · have hm := defMeasure_advanceAttack env
      { r with timerArmed := false, defenseChoice := some choiceSilence,
               roundScores := addScore r.roundScores d (-1) }
      (by dsimp only; exact hidx)
    dsimp only at hm
    have h2 : defMeasure r = 3 * (r.attackOrder.length - r.currentAttackerIdx) + 1 := by
      unfold defMeasure
      rw [hph]
    omega
  · unfold DefaultResolved
    rw [hph, hatk]
    dsimp only
    rw [hd]
    dsimp only
    constructor
    · rw [advanceAttack_defenseChoice]
    · rw [advanceAttack_roundScores]
      show scoreLookup (addScore r.roundScores d (-1)) d = scoreLookup r.roundScores d - 1
      rw [scoreLookup_addScore]
      simp
      omega

theorem fallback_civSelect_spec (env : Env) (r : Room) (hph : r.phase = GPhase.civSelect) :
    defMeasure (timerFallback env { r with timerArmed := false }) < defMeasure r
  ∧ DefaultResolved env r (timerFallback env { r with timerArmed := false })
  ∧ ((timerFallback env { r with timerArmed := false }).timerArmed = true ∨
      (timerFallback env { r with timerArmed := false }).phase = GPhase.roundEnd) := by
  have hfb : timerFallback env { r with timerArmed := false } =
      gotoRoundStart env (autoAssignCivs env { r with timerArmed := false }) := by
    unfold timerFallback
    rw [show ({ r with timerArmed := false } : Room).phase = GPhase.civSelect from hph]
    rfl
  rw [hfb]
  have hlen : (autoAssignCivs env { r with timerArmed := false }).players.length =
      r.players.length := by
    unfold autoAssignCivs
    dsimp only
    rw [assignCivs_length]
  refine ⟨?_, ?_, Or.inl ?_⟩
  · have hb := defMeasure_gotoRoundStart env (autoAssignCivs env { r with timerArmed := false })
    have h2 : defMeasure r = 3 * r.players.length + 3 := by
      unfold defMeasure
      rw [hph]
    omega
  · unfold DefaultResolved
    rw [hph]
    intro p hp
    rw [gotoRoundStart_players] at hp
    unfold autoAssignCivs at hp
    dsimp only at hp
    exact assignCivs_isSome _ _ _ _ p hp
  · unfold gotoRoundStart
    exact gotoAttackPrep_armed env _

theorem fallback_attackPrep_spec (env : Env) (r : Room) (hph : r.phase = GPhase.attackPrep)
    (atk : Attack)
    (hatk : r.currentAttack = some atk) (hdn : atk.defenderId = none)
    (hmem : atk.attackerId ∈ ids r.players)
    (hidx : r.currentAttackerIdx < r.attackOrder.length) :
    defMeasure (timerFallback env { r with timerArmed := false }) < defMeasure r
  ∧ DefaultResolved env r (timerFallback env { r with timerArmed := false })
  ∧ ((timerFallback env { r with timerArmed := false }).timerArmed = true ∨
      (timerFallback env { r with timerArmed := false }).phase = GPhase.roundEnd) := by
  have hfb : timerFallback env { r with timerArmed := false } =
      gotoDefense env (autoPickAttack env { r with timerArmed := false }) := by
    unfold timerFallback
    rw [show ({ r with timerArmed := false } : Room).phase = GPhase.attackPrep from hph]
    rfl
  have h2 : defMeasure r = 3 * (r.attackOrder.length - r.currentAttackerIdx) + 2 := by
    unfold defMeasure
    rw [hph]
  rw [hfb]
  cases htgt : (targetsOf r.players atk.attackerId).head? with
  | none =>
    have hap : autoPickAttack env { r with timerArmed := false } =
        { r with timerArmed := false } := by
      unfold autoPickAttack
      rw [show ({ r with timerArmed := false } : Room).currentAttack = some atk from hatk]
      dsimp only
      rw [hdn]
      dsimp only
      rw [show (targetsOf ({ r with timerArmed := false } : Room).players
        atk.attackerId).head? = none from htgt]
    rw [hap]
    have hgd : gotoDefense env { r with timerArmed := false } =
        advanceAttack env
          { r with timerArmed := false, phase := GPhase.defense, defenseChoice := none,
                   cancelVotes := ([] : List (PlayerId × String)),
                   currentAttack := some atk } := by
      unfold gotoDefense
      dsimp only
      rw [show ({ r with timerArmed := false } : Room).currentAttack = some atk from hatk]
      dsimp only
      rw [hdn]
      rw [Option.none_bind]
      cases hfp : findPlayerIn ({ r with timerArmed := false } : Room).players atk.attackerId with
      | none => rfl
      | some pa => rfl
    rw [hgd]
    refine ⟨?_, ?_, Or.inl (advanceAttack_armed env _)⟩
    · have hm := defMeasure_advanceAttack env
        { r with timerArmed := false, phase := GPhase.defense, defenseChoice := none,
                 cancelVotes := ([] : List (PlayerId × String)),
                 currentAttack := some atk }
        (by dsimp only; exact hidx)
      dsimp only at hm
      omega
    · unfold DefaultResolved
      rw [hph, hatk]
      dsimp only
      rw [htgt]
      exact trivial
  | some t =>
    have hap : autoPickAttack env { r with timerArmed := false } =
        { r with timerArmed := false, currentAttack := some { atk with
            defenderId := some t.id,
            factId := pickFirstId (getConfrontationFacts env
              ((findPlayerIn r.players atk.attackerId).bind (fun p => p.civId)) t.civId),
            fallacyId := pickFirstId atk.attackerCards } } := by
      unfold autoPickAttack
      rw [show ({ r with timerArmed := false } : Room).currentAttack = some atk from hatk]
      dsimp only
      rw [hdn]
      dsimp only
      rw [show (targetsOf ({ r with timerArmed := false } : Room).players
        atk.attackerId).head? = some t from htgt]
    obtain ⟨pa, hpa⟩ := findPlayerIn_isSome r.players atk.attackerId hmem
    have htmem : t.id ∈ ids r.players := by
      have ht1 : t ∈ targetsOf r.players atk.attackerId :=
        List.mem_of_mem_head? (Option.mem_def.mpr htgt)
      have ht2 : t ∈ r.players := by
        unfold targetsOf at ht1
        exact List.mem_of_mem_filter ht1
      exact List.mem_map.mpr ⟨t, ht2, rfl⟩
    obtain ⟨pd, hpd⟩ := findPlayerIn_isSome r.players t.id htmem
    rw [hap]
    have hgd : gotoDefense env
        { r with timerArmed := false, currentAttack := some { atk with
            defenderId := some t.id,
            factId := pickFirstId (getConfrontationFacts env
              ((findPlayerIn r.players atk.attackerId).bind (fun p => p.civId)) t.civId),
            fallacyId := pickFirstId atk.attackerCards } } =
        { r with timerArmed := true, phase := GPhase.defense, defenseChoice := none,
                 cancelVotes := ([] : List (PlayerId × String)),
                 currentAttack := some { atk with
                   defenderId := some t.id,
                   factId := pickFirstId (getConfrontationFacts env
                     ((findPlayerIn r.players atk.attackerId).bind (fun p => p.civId)) t.civId),
                   fallacyId := pickFirstId atk.attackerCards },
                 speeches := r.speeches ++
                   [{ playerId := atk.attackerId, role := roleAttack }] } := by
      unfold gotoDefense
      dsimp only
      rw [hpa]
      rw [Option.some_bind]
      rw [hpd]
    rw [hgd]
    refine ⟨?_, ?_, Or.inl rfl⟩
    · have h1 : defMeasure
          { r with timerArmed := true, phase := GPhase.defense, defenseChoice := none,
                   cancelVotes := ([] : List (PlayerId × String)),
                   currentAttack := some { atk with
                     defenderId := some t.id,
                     factId := pickFirstId (getConfrontationFacts env
                       ((findPlayerIn r.players atk.attackerId).bind (fun p => p.civId)) t.civId),
                     fallacyId := pickFirstId atk.attackerCards },
                   speeches := r.speeches ++
                     [{ playerId := atk.attackerId, role := roleAttack }] } =
          3 * (r.attackOrder.length - r.currentAttackerIdx) + 1 := rfl
      omega
    · unfold DefaultResolved
      rw [hph, hatk]
      dsimp only
      rw [htgt]
      dsimp only
      exact ⟨_, rfl, rfl, rfl, rfl⟩

/-- C4.  For every room with an armed deadline and zero participant
responses since it was armed (the `ZeroResponseState` invariants are
exactly what the arming transition established), firing the deadline (a)
fires at most once — `expire` consumes the arming, and `expire` of a
disarmed room is `none`, so the same deadline instance can never resolve a
phase twice; (b) applies the documented default resolution of that phase
(`DefaultResolved`: auto-assigned civilizations, first legal
target/fact/card, silence penalty, empty cancel vote resolved as not
cancelled, zero-ballot rating tally, map phase closed); and (c) strictly
advances the machine (the round measure `defMeasure` decreases) and leaves
it either re-armed or in the idle `round_end` phase — it never stalls. -/
theorem deadline_fallback_advances (env : Env) (r : Room) (h : ZeroResponseState env r) :
    expire env r = some (timerFallback env { r with timerArmed := false })
  ∧ defMeasure (timerFallback env { r with timerArmed := false }) < defMeasure r
  ∧ DefaultResolved env r (timerFallback env { r with timerArmed := false })
  ∧ ((timerFallback env { r with timerArmed := false }).timerArmed = true ∨
      (timerFallback env { r with timerArmed := false }).phase = GPhase.roundEnd)
  ∧ (∀ s : Room, s.timerArmed = false → expire env s = none) := by
  have hexp : expire env r = some (timerFallback env { r with timerArmed := false }) := by
    unfold expire
    rw [if_pos h.armed]
  have hnone : ∀ s : Room, s.timerArmed = false → expire env s = none := by
    intro s hs
    unfold expire
    rw [if_neg (by rw [hs]; exact Bool.false_ne_true)]
  have hmain : defMeasure (timerFallback env { r with timerArmed := false }) < defMeasure r
      ∧ DefaultResolved env r (timerFallback env { r with timerArmed := false })
      ∧ ((timerFallback env { r with timerArmed := false }).timerArmed = true ∨
          (timerFallback env { r with timerArmed := false }).phase = GPhase.roundEnd) := by
    have ht := h.timed
    simp only [List.mem_cons, List.mem_singleton, List.not_mem_nil, or_false] at ht
    rcases ht with hph | hph | hph | hph | hph | hph
    · exact fallback_civSelect_spec env r hph
    · obtain ⟨atk, hatk, hdn, hmemA⟩ := h.atkPrepWf hph
      exact fallback_attackPrep_spec env r hph atk hatk hdn hmemA (h.idxLt (Or.inl hph))
    · obtain ⟨hdc, atk, d, hatk, hd⟩ := h.defenseWf hph
      exact fallback_defense_spec env r hph hdc atk d hatk hd (h.idxLt (Or.inr (Or.inl hph)))
    · obtain ⟨hcv, hnp, atk, d, hatk, hd⟩ := h.cancelWf hph
      exact fallback_cancel_spec env r hph hcv hnp atk d hatk hd (h.idxLt (Or.inr (Or.inr hph)))
    · exact fallback_rating_spec env r hph (h.ratingWf hph)
    · exact fallback_map_spec env r hph
  exact ⟨hexp, hmain.1, hmain.2.1, hmain.2.2, hnone⟩

/-- Witness for `deadline_fallback_advances` at a concrete input: a
two-player room idle in the rating phase with its deadline armed. -/
theorem deadline_fallback_advances_witness :
    expire envDemo ratingRoomDemo =
      some (timerFallback envDemo { ratingRoomDemo with timerArmed := false })
  ∧ defMeasure (timerFallback envDemo { ratingRoomDemo with timerArmed := false }) <
      defMeasure ratingRoomDemo := by
  have h : ZeroResponseState envDemo ratingRoomDemo := by
    refine ⟨rfl, by decide, by decide, ?_, ?_, ?_, ?_, fun _ => rfl⟩
    · intro hc
      rcases hc with hc | hc | hc <;> exact absurd hc (by decide)
    · intro hc
      exact absurd hc (by decide)
    · intro hc
      exact absurd hc (by decide)
    · intro hc
      exact absurd hc (by decide)
  exact ⟨(deadline_fallback_advances envDemo ratingRoomDemo h).1,
         (deadline_fallback_advances envDemo ratingRoomDemo h).2.1⟩
